import Mathlib

/-!
Verification development for the card-generation pipeline of the
extremadura-en-datos repository (scripts/make_cards.py).

The Python code is shallowly embedded: JSON values are modelled by the
inductive type `Py`, numeric values by exact rationals, fallible code by
`Except`/`Option`.  The generic date parser used as a last resort by
`normalize_period` (pandas.to_datetime) is a parameter `gp` of the
embedding, so theorems quantifying over `gp` hold for every behaviour of
that library; a concrete best-effort model `pd_to_datetime_model` is used
where closed statements need one.
-/

/-- Exceptions that the embedded code can raise. -/
inductive PyErr where
  | nameError
  | attributeError
  | typeError
  | valueError
deriving DecidableEq, Repr

/-- Model of a Python value as produced by json.loads (plus NaN, which the
Python json module accepts by default).  Numbers are exact: ints as `Int`,
floats as `ℚ` with a separate NaN value. -/
inductive Py where
  | none
  | bool (b : Bool)
  | int (n : Int)
  | float (q : ℚ)
  | nan
  | str (s : String)
  | list (xs : List Py)
  | dict (kvs : List (String × Py))

/-- Truthiness of a Python value (bool(x)).  NaN is truthy. -/
def truthy : Py → Bool
  | .none => false
  | .bool b => b
  | .int n => n != 0
  | .float q => q != 0
  | .nan => true
  | .str s => s != ""
  | .list xs => !xs.isEmpty
  | .dict kvs => !kvs.isEmpty

/-- Model of dict.get(k) with default None; on non-dicts it is only used
after an isinstance check in the embedding, mirroring the code. -/
def pyGet (d : Py) (k : String) : Py :=
  match d with
  | .dict kvs => (kvs.lookup k).getD .none
  | _ => .none

/-- Key membership test, modelling the Python expression k in d. -/
def pyHasKey (d : Py) (k : String) : Bool :=
  match d with
  | .dict kvs => (kvs.lookup k).isSome
  | _ => false

/-- Model of the Python expression a or b: the first operand if truthy,
otherwise the second. -/
def pyOr (a b : Py) : Py :=
  if truthy a then a else b

/-- Whitespace characters stripped by str.strip() (ASCII subset). -/
def pyWs (c : Char) : Bool :=
  c = ' ' || c = '\t' || c = '\n' || c = '\r' || c = '\x0b' || c = '\x0c'

/-- Strip leading and trailing whitespace from a character list. -/
def stripChars (l : List Char) : List Char :=
  ((l.dropWhile pyWs).reverse.dropWhile pyWs).reverse

/-- Model of str.strip(). -/
def pyStrip (s : String) : String :=
  String.mk (stripChars s.toList)

/-- Decimal digits of a natural number, most significant first, with
explicit fuel so that the definition is structural (hence reducible by the
kernel).  The fuel is always taken to be larger than the number. -/
def natDigits : Nat → Nat → List Char → List Char
  | 0, _, acc => acc
  | fuel+1, n, acc =>
    if n < 10 then Char.ofNat (48 + n) :: acc
    else natDigits fuel (n / 10) (Char.ofNat (48 + n % 10) :: acc)

/-- Decimal rendering of a natural number, as produced by str() in Python. -/
def natStr (n : Nat) : String :=
  String.mk (natDigits (n+1) n [])

/-- Decimal rendering of an integer, as produced by str() in Python. -/
def intStr (n : Int) : String :=
  if n < 0 then "-" ++ natStr n.natAbs else natStr n.natAbs

/-- Left zero-padding of a digit string, modelling format specs like 04d. -/
def padZeros (w : Nat) (l : List Char) : List Char :=
  List.replicate (w - l.length) '0' ++ l

/-- The Python format expression for a four digit zero padded number. -/
def pad4 (n : Nat) : String :=
  String.mk (padZeros 4 (natDigits (n+1) n []))

/-- The Python format expression for a two digit zero padded number. -/
def pad2 (n : Nat) : String :=
  String.mk (padZeros 2 (natDigits (n+1) n []))

/-- Model of str(x) for Python values.  Scalars are rendered faithfully.
Containers and non-integral floats are rendered approximately (Python
would print element reprs resp. the shortest roundtrip float decimal);
every rendering of a container keeps its surrounding brackets, so that, as
in Python, it can neither parse as a number nor match a period pattern.
No theorem below depends on the approximate cases. -/
def pyStr : Py → String
  | .none => "None"
  | .bool b => if b then "True" else "False"
  | .int n => intStr n
  | .float q => if q.den = 1 then intStr q.num ++ ".0" else intStr q.num ++ "/" ++ natStr q.den
  | .nan => "nan"
  | .str s => s
  | .list _ => "[...]"
  | .dict _ => "\x7b...\x7d"

/-- Numeric value of a list of decimal digit characters (int() on the
matched group of a regex). -/
def natOfDigits (l : List Char) : Nat :=
  l.foldl (fun a c => 10 * a + (c.toNat - 48)) 0

/-- Matcher for the regex pattern of four digits, optional whitespace, an
M or m, optional whitespace, one or two digits, anchored at both ends
(the YYYYMmm period form).  Returns the two groups as numbers. -/
def matchYearM (l : List Char) : Option (Nat × Nat) :=
  let ds := l.takeWhile Char.isDigit
  let r := l.dropWhile Char.isDigit
  if ds.length = 4 then
    match r.dropWhile pyWs with
    | c :: r2 =>
      if c = 'M' ∨ c = 'm' then
        let r3 := r2.dropWhile pyWs
        let ms := r3.takeWhile Char.isDigit
        let r4 := r3.dropWhile Char.isDigit
        if (ms.length = 1 ∨ ms.length = 2) ∧ r4 = [] then
          some (natOfDigits ds, natOfDigits ms)
        else Option.none
      else Option.none
    | [] => Option.none
  else Option.none

/-- Matcher for one or two digits, a slash or dash, four digits, anchored
(the mm/YYYY period form).  Returns (month group, year group). -/
def matchMonthYear (l : List Char) : Option (Nat × Nat) :=
  let ds := l.takeWhile Char.isDigit
  let r := l.dropWhile Char.isDigit
  if ds.length = 1 ∨ ds.length = 2 then
    match r with
    | c :: r2 =>
      if c = '/' ∨ c = '-' then
        let ys := r2.takeWhile Char.isDigit
        let r3 := r2.dropWhile Char.isDigit
        if ys.length = 4 ∧ r3 = [] then some (natOfDigits ds, natOfDigits ys)
        else Option.none
      else Option.none
    | [] => Option.none
  else Option.none

/-- Matcher for four digits, a slash or dash, one or two digits, anchored
(the YYYY/mm period form).  Returns (year group, month group). -/
def matchYearMonth (l : List Char) : Option (Nat × Nat) :=
  let ds := l.takeWhile Char.isDigit
  let r := l.dropWhile Char.isDigit
  if ds.length = 4 then
    match r with
    | c :: r2 =>
      if c = '/' ∨ c = '-' then
        let ms := r2.takeWhile Char.isDigit
        let r3 := r2.dropWhile Char.isDigit
        if (ms.length = 1 ∨ ms.length = 2) ∧ r3 = [] then
          some (natOfDigits ds, natOfDigits ms)
        else Option.none
      else Option.none
    | [] => Option.none
  else Option.none

/-- Matcher for four digits, dash, two digits, dash, two digits, anchored
(the YYYY-mm-dd period form).  The code uses the first two groups as raw
strings, so they are returned as strings. -/
def matchYMD (l : List Char) : Option (String × String) :=
  let ds := l.takeWhile Char.isDigit
  let r := l.dropWhile Char.isDigit
  if ds.length = 4 then
    match r with
    | c1 :: r2 =>
      if c1 = '-' then
        let ms := r2.takeWhile Char.isDigit
        let r3 := r2.dropWhile Char.isDigit
        if ms.length = 2 then
          match r3 with
          | c2 :: r4 =>
            if c2 = '-' then
              let es := r4.takeWhile Char.isDigit
              let r5 := r4.dropWhile Char.isDigit
              if es.length = 2 ∧ r5 = [] then some (String.mk ds, String.mk ms)
              else Option.none
            else Option.none
          | [] => Option.none
        else Option.none
      else Option.none
    | [] => Option.none
  else Option.none

/-- Embedding of normalize_period (make_cards.py lines 31-47).  The
isinstance branch for pd.Timestamp/datetime cannot arise for JSON-decoded
values and is not modelled.  `gp` is the generic date parser of the last
resort (pd.to_datetime with dayfirst, returning year and month, or raising,
which is modelled as `Option.none` and leads to the fallback return of the
stripped string). -/
def normalize_period (gp : String → Option (Nat × Nat)) (p : Py) : String :=
  let s := pyStrip (pyStr p)
  let l := s.toList
  match matchYearM l with
  | some (y, m) => pad4 y ++ "-" ++ pad2 m
  | Option.none =>
  match matchMonthYear l with
  | some (m, y) => pad4 y ++ "-" ++ pad2 m
  | Option.none =>
  match matchYearMonth l with
  | some (y, m) => pad4 y ++ "-" ++ pad2 m
  | Option.none =>
  match matchYMD l with
  | some (g1, g2) => g1 ++ "-" ++ g2
  | Option.none =>
  match gp s with
  | some (y, m) => natStr y ++ "-" ++ pad2 m
  | Option.none => s

/-- Mantissa and scale of a decimal numeral: parses optional sign, digits,
optional point and fraction digits, optional exponent, anchored; returns
the numerator and the power-of-ten denominator.  This models the accepting
grammar of the Python float() constructor on ordinary numerals (the inf
and nan spellings and digit group underscores are outside the rational
value model and are not accepted; no theorem below depends on them, since
the code filters the nan spellings before calling float()). -/
def floatParts (l : List Char) : Option (Int × Nat) :=
  let l := stripChars l
  let (sgn, l1) : Int × List Char :=
    match l with
    | '+' :: t => (1, t)
    | '-' :: t => (-1, t)
    | t => (1, t)
  let ipart := l1.takeWhile Char.isDigit
  let r1 := l1.dropWhile Char.isDigit
  let (fpart, r2) : List Char × List Char :=
    match r1 with
    | '.' :: t => (t.takeWhile Char.isDigit, t.dropWhile Char.isDigit)
    | t => ([], t)
  if ipart.length = 0 ∧ fpart.length = 0 then Option.none
  else
    let mant : Int := sgn * (natOfDigits (ipart ++ fpart) : Int)
    let den : Nat := 10 ^ fpart.length
    match r2 with
    | [] => some (mant, den)
    | e :: r3 =>
      if e = 'e' ∨ e = 'E' then
        let (esgn, r4) : Bool × List Char :=
          match r3 with
          | '+' :: t => (false, t)
          | '-' :: t => (true, t)
          | t => (false, t)
        let eds := r4.takeWhile Char.isDigit
        let r5 := r4.dropWhile Char.isDigit
        if eds.length ≠ 0 ∧ r5 = [] then
          let ex := natOfDigits eds
          if esgn then some (mant, den * 10 ^ ex)
          else some (mant * (10 ^ ex : Nat), den)
        else Option.none
      else Option.none

/-- Model of float(s): the parsed rational value, or `Option.none` for the
ValueError case. -/
def pyFloat (s : String) : Option ℚ :=
  (floatParts s.toList).map (fun p => (p.1 : ℚ) / (p.2 : ℚ))

/-- Model of the two chained replace calls of to_float: all dots removed,
then every comma turned into a dot (both patterns are single characters,
so the replacement is character-wise). -/
def stripDotsCommaToDot (l : List Char) : List Char :=
  (l.filter (fun c => c ≠ '.')).map (fun c => if c = ',' then '.' else c)

/-- Embedding of to_float (make_cards.py lines 49-61). -/
def to_float (x : Py) : Option ℚ :=
  match x with
  | .none => Option.none
  | .nan => Option.none
  | .bool b => some (if b then 1 else 0)
  | .int n => some (n : ℚ)
  | .float q => some q
  | _ =>
    let s := pyStrip (pyStr x)
    if s = "" ∨ s.toLower = "nan" ∨ s.toLower = "na" ∨ s.toLower = "none" then Option.none
    else pyFloat (String.mk (stripDotsCommaToDot s.toList))

/-- Exception-aware variant of to_float: the float() call raises
ValueError on unparseable strings and the code catches exactly that, so
the function never propagates an exception.  Used to state that fact. -/
def to_float_exc (x : Py) : Except PyErr (Option ℚ) :=
  match x with
  | .none => .ok Option.none
  | .nan => .ok Option.none
  | .bool b => .ok (some (if b then 1 else 0))
  | .int n => .ok (some (n : ℚ))
  | .float q => .ok (some q)
  | _ =>
    let s := pyStrip (pyStr x)
    if s = "" ∨ s.toLower = "nan" ∨ s.toLower = "na" ∨ s.toLower = "none" then .ok Option.none
    else
      match pyFloat (String.mk (stripDotsCommaToDot s.toList)) with
      | some v => .ok (some v)
      | Option.none => .ok Option.none

/-- Modelled from the spec: the string conversion rule of the value
normalizer stated in its own words — strip thousands separators (dots),
turn the decimal comma into a decimal point, then parse, with any parse
failure yielding the absent marker.  Compared against `to_float` below. -/
def spec_value_rule (s : String) : Option ℚ :=
  pyFloat (String.mk (stripDotsCommaToDot (pyStrip s).toList))

/-- Embedding of pct_change (make_cards.py lines 63-66): the guard checks
b is None, b equal to zero, then a is None, and only then divides. -/
def pct_change (a b : Option ℚ) : Option ℚ :=
  if b = Option.none ∨ b = some 0 ∨ a = Option.none then Option.none
  else some ((a.getD 0 - b.getD 0) / b.getD 0 * 100)

/-- Indicator for leap years of the proleptic Gregorian calendar. -/
def leapBit (y : Nat) : Nat :=
  if (y % 4 = 0 ∧ y % 100 ≠ 0) ∨ y % 400 = 0 then 1 else 0

/-- Length of a calendar month. -/
def daysInMonth (y m : Nat) : Nat :=
  if m = 2 then 28 + leapBit y
  else if m = 4 ∨ m = 6 ∨ m = 9 ∨ m = 11 then 30 else 31

/-- Ground truth for epoch day arithmetic: days from 1970-01-01 to the
first of January of year 1970+k, accumulated one year at a time. -/
def daysFrom1970 : Nat → Nat
  | 0 => 0
  | k+1 => daysFrom1970 k + 365 + leapBit (1970 + k)

/-- Ground truth: days of year y that precede month m, accumulated one
month at a time. -/
def daysBeforeMonth (y : Nat) : Nat → Nat
  | 0 => 0
  | 1 => 0
  | m+2 => daysBeforeMonth y (m+1) + daysInMonth y (m+1)

/-- Days from 1970-01-01 to the civil date (y, m, d), via the ground
truth accumulators. -/
def dateToDays (y m d : Nat) : Nat :=
  daysFrom1970 (y - 1970) + daysBeforeMonth y m + (d - 1)

/-- Epoch day number of the first day of a month. -/
def monthStart (y m : Nat) : Nat := dateToDays y m 1

/-- Epoch millisecond of the first instant of a month. -/
def monthStartMs (y m : Nat) : Nat := monthStart y m * 86400000

/-- The calendar month following (y, m). -/
def nextMonth (y m : Nat) : Nat × Nat :=
  if m = 12 then (y+1, 1) else (y, m+1)

/-- Closed form for the number of days from 0001-01-01 to the first of
January of year y (the CPython _days_before_year). -/
def daysBefore01 (y : Nat) : Nat :=
  365*(y-1) + (y-1)/4 - (y-1)/100 + (y-1)/400

/-- The CPython _DAYS_BEFORE_MONTH table (non-leap years). -/
def dbmN (m : Nat) : Nat :=
  match m with
  | 1 => 0 | 2 => 31 | 3 => 59 | 4 => 90 | 5 => 120 | 6 => 151 | 7 => 181
  | 8 => 212 | 9 => 243 | 10 => 273 | 11 => 304 | 12 => 334 | _ => 0

/-- The CPython _DAYS_IN_MONTH table (non-leap years). -/
def dimN (m : Nat) : Nat :=
  match m with
  | 2 => 28 | 4 => 30 | 6 => 30 | 9 => 30 | 11 => 30 | _ => 31

/-- Month and day from a day-of-year index, as computed by the tail of
the CPython _ord2ymd: a shifted guess by five bit shift, then one
correction step against the days-before-month table. -/
def monthFromDOY (leap : Bool) (n : Nat) : Nat × Nat :=
  let month := (n + 50) / 32
  let preceding := dbmN month + (if 2 < month ∧ leap = true then 1 else 0)
  if n < preceding then
    let month2 := month - 1
    let preceding2 := preceding - (dimN month2 + (if month2 = 2 ∧ leap = true then 1 else 0))
    (month2, n - preceding2 + 1)
  else
    (month, n - preceding + 1)

/-- The CPython _ord2ymd conversion from a proleptic Gregorian ordinal
(1 is 0001-01-01) to (year, month, day): successive division by the day
counts of the 400, 100, 4 and 1 year cycles, with the two end-of-cycle
special cases, then month lookup. -/
def ord2ymd (n : Nat) : Nat × Nat × Nat :=
  let n0 := n - 1
  let n400 := n0 / 146097
  let n100 := n0 % 146097 / 36524
  let n4 := n0 % 146097 % 36524 / 1461
  let n1 := n0 % 146097 % 36524 % 1461 / 365
  let k := n0 % 146097 % 36524 % 1461 % 365
  let year := n400 * 400 + n100 * 100 + n4 * 4 + n1 + 1
  if n1 = 4 ∨ n100 = 4 then (year - 1, 12, 31)
  else
    let p := monthFromDOY (decide (n1 = 3 ∧ (n4 ≠ 24 ∨ n100 = 3))) k
    (year, p.1, p.2)

/-- Conversion of an epoch day count to (year, month, day), modelling the
calendar part of datetime.utcfromtimestamp (the ordinal of 1970-01-01 is
719163). -/
def epochDaysToYMD (days : Nat) : Nat × Nat × Nat :=
  ord2ymd (719163 + days)

/-- Year and month of an epoch milliseconds value, as computed by
datetime.utcfromtimestamp(ms/1000): seconds, then days, then calendar.
The float rounding of ms/1000.0 is below one millisecond, hence never
moves an integral ms across a month boundary and is not modelled. -/
def utcYM (ms : Nat) : Nat × Nat :=
  let p := epochDaysToYMD (ms / 1000 / 86400)
  (p.1, p.2.1)

/-- The strftime "%Y-%m" rendering applied by read_json to an epoch
period. -/
def epochStr (ms : Nat) : String :=
  natStr (utcYM ms).1 ++ "-" ++ pad2 (utcYM ms).2

/-- Exhaustive check behind `monthFromDOY_correct`, evaluated by the
kernel for both leap flags. -/
def mdCheck (L : Bool) : Bool :=
  (List.range 13).all fun m =>
    (List.range 32).all fun d =>
      decide (1 ≤ m → 1 ≤ d → d ≤ dimN m + (if m = 2 ∧ L = true then 1 else 0) →
        monthFromDOY L (dbmN m + (if 2 < m ∧ L = true then 1 else 0) + d - 1) = (m, d))

/-- A single cleaned observation: the dict with period and value keys that
read_json appends to its output. -/
structure Obs where
  period : String
  value : ℚ
deriving DecidableEq, Repr

/-- Insertion of an observation into a period-sorted list, after the run
of strictly smaller periods and before equal ones. -/
def insertObs (a : Obs) : List Obs → List Obs
  | [] => [a]
  | b :: t => if b.period < a.period then b :: insertObs a t else a :: b :: t

/-- The list.sort(key period) call of read_json: a stable ascending sort
by period (Python uses a stable sort; any stable sort computes the same
permutation, so insertion sort is an exact model). -/
def pySortObs : List Obs → List Obs
  | [] => []
  | a :: t => insertObs a (pySortObs t)

/-- Conversion of an epoch milliseconds value to the "%Y-%m" string, with
the range error datetime raises beyond year 9999 (253402300800000 ms is
10000-01-01T00:00:00Z). -/
def epochPeriodE (ms : Nat) : Except PyErr String :=
  if ms < 253402300800000 then .ok (epochStr ms) else .error .valueError

/-- The period handling shared by both record loops of read_json (lines
93-96 and 118-121): a numeric period strictly above 10_000_000 is taken
as epoch milliseconds and rendered via utcfromtimestamp, anything else
goes through normalize_period.  A Python bool is numeric for isinstance
but is at most 1, hence always takes the normalize_period path, like the
catch-all here.  For floats, floor(q)/1000 has the same day as q/1000 and
the sub-millisecond float rounding of per/1000.0 cannot move an integral
millisecond value across a month boundary. -/
def periodOf (gp : String → Option (Nat × Nat)) (per : Py) : Except PyErr String :=
  match per with
  | .int n => if 10000000 < n then epochPeriodE n.toNat else .ok (normalize_period gp per)
  | .float q => if 10000000 < q then epochPeriodE (Int.floor q).toNat else .ok (normalize_period gp per)
  | _ => .ok (normalize_period gp per)

/-- One record of the flat-list branch of read_json (lines 89-99): period
from period/Periodo/Fecha, value from value/Valor (both via the Python
or-chain), epoch or normalize_period, to_float, then the keep test
`if per and val is not None`.  Non-dict elements raise AttributeError at
the first get call. -/
def normRecA (gp : String → Option (Nat × Nat)) (d : Py) : Except PyErr (Option Obs) :=
  match d with
  | .dict _ =>
    match periodOf gp (pyOr (pyOr (pyGet d "period") (pyGet d "Periodo")) (pyGet d "Fecha")) with
    | .error e => .error e
    | .ok per =>
      match to_float (pyOr (pyGet d "value") (pyGet d "Valor")) with
      | some v => .ok (if per ≠ "" then some ⟨per, v⟩ else Option.none)
      | Option.none => .ok Option.none
  | _ => .error .attributeError

/-- One record of the Data-sequence branch of read_json (lines 115-124):
same as `normRecA` with the key priority orders Fecha/Periodo/period and
Valor/value. -/
def normRecBC (gp : String → Option (Nat × Nat)) (d : Py) : Except PyErr (Option Obs) :=
  match d with
  | .dict _ =>
    match periodOf gp (pyOr (pyOr (pyGet d "Fecha") (pyGet d "Periodo")) (pyGet d "period")) with
    | .error e => .error e
    | .ok per =>
      match to_float (pyOr (pyGet d "Valor") (pyGet d "value")) with
      | some v => .ok (if per ≠ "" then some ⟨per, v⟩ else Option.none)
      | Option.none => .ok Option.none
  | _ => .error .attributeError

/-- The record loop of read_json: process every element in order,
propagating any exception, collecting the kept observations. -/
def processRecs (f : Py → Except PyErr (Option Obs)) : List Py → Except PyErr (List Obs)
  | [] => .ok []
  | r :: rs =>
    match f r with
    | .error e => .error e
    | .ok o =>
      match processRecs f rs with
      | .error e => .error e
      | .ok rest => .ok (match o with | some ob => ob :: rest | Option.none => rest)

/-- The shape test of Caso A (line 87): a nonempty list whose first
element is a dict without a truthy "Data" entry. -/
def shapeA (data : Py) : Prop :=
  ∃ d0 rest, data = .list (d0 :: rest) ∧ (∃ kvs, d0 = .dict kvs) ∧ truthy (pyGet d0 "Data") = false

/-- The shape test of Caso B (line 104): a dict with a "Data" key whose
value is a list. -/
def shapeB (data : Py) : Prop :=
  ∃ kvs xs, data = .dict kvs ∧ pyHasKey data "Data" = true ∧ pyGet data "Data" = .list xs

/-- The shape test of Caso C (line 107): a one-element list wrapping a
dict that has a "Data" key. -/
def shapeC (data : Py) : Prop :=
  ∃ d0, data = .list [d0] ∧ (∃ kvs, d0 = .dict kvs) ∧ pyHasKey d0 "Data" = true

/-- Embedding of the body of read_json on parsed JSON (lines 87-126): the
Caso A / Caso B / Caso C cascade, the warning-and-None fallback for
unrecognized shapes, record normalization and the final sort.  In Caso C
the code iterates data[0]["Data"] without checking it is a list: iterating
a nonempty string or dict yields elements without a get method
(AttributeError), iterating any other non-list raises TypeError. -/
def readJsonParsed (gp : String → Option (Nat × Nat)) (data : Py) : Except PyErr (Option (List Obs)) :=
  match data with
  | .list (d0 :: rest) =>
    match d0 with
    | .dict _ =>
      if truthy (pyGet d0 "Data") = true then
        match rest with
        | [] =>
          match pyGet d0 "Data" with
          | .list xs =>
            match processRecs (normRecBC gp) xs with
            | .error e => .error e
            | .ok out => .ok (some (pySortObs out))
          | .str s => if s = "" then .ok (some []) else .error .attributeError
          | .dict kvs => if kvs.isEmpty then .ok (some []) else .error .attributeError
          | _ => .error .typeError
        | _ :: _ => .ok Option.none
      else
        match processRecs (normRecA gp) (d0 :: rest) with
        | .error e => .error e
        | .ok out => .ok (some (pySortObs out))
    | _ => .ok Option.none
  | .dict _ =>
    if pyHasKey data "Data" = true then
      match pyGet data "Data" with
      | .list xs =>
        match processRecs (normRecBC gp) xs with
        | .error e => .error e
        | .ok out => .ok (some (pySortObs out))
      | _ => .ok Option.none
    else .ok Option.none
  | _ => .ok Option.none

/-- The file system seen by read_json: for a table id, either no file,
a file whose text is not valid JSON, or a parsed JSON value. -/
def FileSys : Type := String → Option (Except Unit Py)

/-- Embedding of read_json (lines 68-126): a missing file returns None,
invalid JSON is caught, warned about and returns None, otherwise the
parsed value is dispatched on its shape. -/
def read_json (gp : String → Option (Nat × Nat)) (fs : FileSys) (tid : String) :
    Except PyErr (Option (List Obs)) :=
  match fs tid with
  | Option.none => .ok Option.none
  | some (.error _) => .ok Option.none
  | some (.ok data) => readJsonParsed gp data

/-- The names bound at module level in scripts/make_cards.py: imports,
constants and function definitions.  Python resolves the callee of a call
in these globals at call time. -/
def pyGlobalNames : List String :=
  ["json", "math", "os", "re", "unicodedata", "Path", "datetime", "pd",
   "Image", "ImageDraw", "ImageFont", "EXCEL_PATH", "DOCS_DATA", "CARDS_DIR",
   "_load_font", "FONT_T", "FONT_V", "FONT_S", "normalize_period", "to_float",
   "pct_change", "read_json", "draw_card", "normalize_text", "ids_from_excel",
   "fallback_ids_from_json", "main"]

/-- data[-1] and data[-2], the latter only when len(data) >= 2 (main
lines 202-203). -/
def lastTwo : List Obs → Option (Obs × Option Obs)
  | [] => Option.none
  | [a] => some (a, Option.none)
  | [a, b] => some (b, some a)
  | _ :: b :: c :: t => lastTwo (b :: c :: t)

/-- The delta main computes from a dataset (lines 202-209): last and
previous observation, to_float on their stored values, then pct_change. -/
def mainDelta (data : List Obs) : Option ℚ :=
  match lastTwo data with
  | Option.none => Option.none
  | some (last, prev) =>
    pct_change (to_float (.float last.value))
      (match prev with
       | some p => to_float (.float p.value)
       | Option.none => Option.none)

/-- Embedding of the per-indicator loop of main (lines 196-214).  The
loop body calls read_json_records(tid); that name is resolved in the
module globals when the call executes, raising NameError if absent.  The
match models the body the call would run with the reader the module
defines (read_json); draw_card, which only renders a PNG, is modelled as
a success. -/
def mainLoop (gp : String → Option (Nat × Nat)) (fs : FileSys) :
    List (String × String) → Nat → Except PyErr Nat
  | [], generadas => .ok generadas
  | (tid, _title) :: rest, generadas =>
    if "read_json_records" ∈ pyGlobalNames then
      match read_json gp fs tid with
      | .error e => .error e
      | .ok Option.none => mainLoop gp fs rest generadas
      | .ok (some data) =>
        if data.isEmpty then mainLoop gp fs rest generadas
        else
          match lastTwo data with
          | Option.none => mainLoop gp fs rest generadas
          | some (last, prev) =>
            match to_float (.float last.value) with
            | Option.none => mainLoop gp fs rest generadas
            | some lv =>
              let _delta := pct_change (some lv)
                (match prev with
                 | some p => to_float (.float p.value)
                 | Option.none => Option.none)
              mainLoop gp fs rest (generadas + 1)
    else .error .nameError

/-- Modelled from the spec: the generic date parsing last resort of the
period normalizer (pd.to_datetime with dayfirst=True), which raises on
strings that are not date-like.  pandas accepts purely numeric strings
only in the 4-digit year, 6-digit YYYYMM and 8-digit YYYYMMDD forms;
other digit-only strings and non-date text raise.  Only those cases are
consulted by the closed statements below; everything else is modelled as
a parse failure. -/
def pd_to_datetime_model (s : String) : Option (Nat × Nat) :=
  let t := (pyStrip s).toList
  if t ≠ [] ∧ t.all Char.isDigit then
    if t.length = 4 then some (natOfDigits t, 1)
    else if t.length = 6 then some (natOfDigits (t.take 4), natOfDigits (t.drop 4))
    else if t.length = 8 then some (natOfDigits (t.take 4), natOfDigits ((t.drop 4).take 2))
    else Option.none
  else Option.none

/-- Head condition used for dropWhile and takeWhile evaluations: the list
is empty or starts with a character the predicate rejects. -/
def headFails (p : Char → Bool) (l : List Char) : Prop :=
  l = [] ∨ ∃ c t, l = c :: t ∧ p c = false


theorem leapBit_le (y : Nat) : leapBit y ≤ 1 := by
  unfold leapBit; split <;> omega

theorem daysBefore01_step (y : Nat) (h : 1 ≤ y) :
    daysBefore01 (y+1) = daysBefore01 y + 365 + leapBit y := by
  obtain ⟨t, rfl⟩ : ∃ t, y = t + 1 := ⟨y - 1, by omega⟩
  unfold daysBefore01 leapBit
  simp only [Nat.add_sub_cancel]
  rw [Nat.succ_div, Nat.succ_div, Nat.succ_div]
  split_ifs <;> omega

theorem daysFrom1970_eq (k : Nat) :
    719162 + daysFrom1970 k = daysBefore01 (1970 + k) := by
  induction k with
  | zero => norm_num [daysFrom1970, daysBefore01]
  | succ n ih =>
    have hs : daysBefore01 (1970 + n + 1) = daysBefore01 (1970 + n) + 365 + leapBit (1970 + n) :=
      daysBefore01_step _ (by omega)
    have hu : daysFrom1970 (n+1) = daysFrom1970 n + 365 + leapBit (1970 + n) := rfl
    have he : 1970 + (n + 1) = 1970 + n + 1 := by omega
    rw [he, hs, hu]
    omega

theorem dbm_closed (y m : Nat) (h1 : 1 ≤ m) (h2 : m ≤ 12) :
    daysBeforeMonth y m = dbmN m + (if 2 < m then leapBit y else 0) := by
  interval_cases m <;>
    simp [daysBeforeMonth, daysInMonth, dbmN] <;> omega

theorem daysInMonth_eq (y m : Nat) (h1 : 1 ≤ m) (h2 : m ≤ 12) :
    daysInMonth y m = dimN m + (if m = 2 then leapBit y else 0) := by
  interval_cases m <;> simp [daysInMonth, dimN]

theorem mdCheck_true (L : Bool) : mdCheck L = true := by
  cases L
  · rfl
  · rfl

theorem monthFromDOY_correct (L : Bool) (m d : Nat) (hm1 : 1 ≤ m) (hm2 : m ≤ 12)
    (hd1 : 1 ≤ d) (hd2 : d ≤ dimN m + (if m = 2 ∧ L = true then 1 else 0)) :
    monthFromDOY L (dbmN m + (if 2 < m ∧ L = true then 1 else 0) + d - 1) = (m, d) := by
  have hd31 : d ≤ 31 := by
    have hA : dimN m ≤ 31 := by unfold dimN; split <;> omega
    by_cases h2 : m = 2
    · subst h2
      have hB : dimN 2 = 28 := rfl
      split at hd2 <;> omega
    · rw [if_neg (by simp [h2])] at hd2
      omega
  have hc := mdCheck_true L
  unfold mdCheck at hc
  rw [List.all_eq_true] at hc
  have h1 := hc m (by rw [List.mem_range]; omega)
  rw [List.all_eq_true] at h1
  have h2 := h1 d (by rw [List.mem_range]; omega)
  exact of_decide_eq_true h2 hm1 hd1 hd2

theorem ord2ymd_inv (y m d : Nat) (hy1 : 1 ≤ y)
    (hm1 : 1 ≤ m) (hm2 : m ≤ 12) (hd1 : 1 ≤ d) (hd2 : d ≤ daysInMonth y m) :
    ord2ymd (daysBefore01 y + (daysBeforeMonth y m + d)) = (y, m, d) := by
  have hdbm := dbm_closed y m hm1 hm2
  have hdim := daysInMonth_eq y m hm1 hm2
  have hl := leapBit_le y
  obtain ⟨qa, qb, qc, qd, hdec, hqb, hqc, hqd⟩ :
      ∃ qa qb qc qd, y - 1 = 400*qa + 100*qb + 4*qc + qd ∧ qb ≤ 3 ∧ qc ≤ 24 ∧ qd ≤ 3 :=
    ⟨(y-1)/400, (y-1)%400/100, (y-1)%400%100/4, (y-1)%400%100%4, by omega, by omega, by omega, by omega⟩
  have hdb : daysBefore01 y = 146097*qa + 36524*qb + 1461*qc + 365*qd := by
    unfold daysBefore01; omega
  have hleap : leapBit y = (if qd = 3 ∧ (qc ≠ 24 ∨ qb = 3) then 1 else 0) := by
    unfold leapBit
    split <;> split <;> omega
  obtain ⟨K, hK, hKle⟩ :
      ∃ K, K = dbmN m + (if 2 < m then leapBit y else 0) + (d - 1) ∧ K ≤ 364 + leapBit y := by
    refine ⟨_, rfl, ?_⟩
    have hmd : dbmN m + dimN m ≤ 365 := by interval_cases m <;> decide
    by_cases h3 : 2 < m
    · rw [if_pos h3]
      rw [if_neg (by omega)] at hdim
      omega
    · rw [if_neg h3]
      by_cases h2 : m = 2
      · subst h2
        rw [if_pos rfl] at hdim
        have hc1 : dbmN 2 = 31 := rfl
        have hc2 : dimN 2 = 28 := rfl
        omega
      · rw [if_neg h2] at hdim
        have hm1' : m = 1 := by omega
        subst hm1'
        have hc1 : dbmN 1 = 0 := rfl
        have hc2 : dimN 1 = 31 := rfl
        omega
  have hn0 : daysBefore01 y + (daysBeforeMonth y m + d) - 1
      = 146097*qa + (36524*qb + (1461*qc + (365*qd + K))) := by
    rw [hdb, hdbm, hK]; omega
  simp only [ord2ymd, hn0]
  by_cases hsp : K = 365
  · -- special case: the last day of a leap year
    have hleap1 : leapBit y = 1 := by omega
    have hcond : qd = 3 ∧ (qc ≠ 24 ∨ qb = 3) := by
      by_contra hcon
      rw [if_neg hcon] at hleap
      omega
    have hm12 : m = 12 ∧ d = 31 := by
      rw [hleap1] at hK
      interval_cases m <;> simp [dbmN, dimN] at hK hdim <;> omega
    obtain ⟨hm12', hd31⟩ := hm12
    subst hm12'
    subst hd31
    obtain ⟨hqd3, hdisj⟩ := hcond
    subst hqd3
    subst hsp
    by_cases hqc24 : qc = 24
    · have hqb3 : qb = 3 := by tauto
      subst hqb3
      subst hqc24
      have e400 : (146097*qa + (36524*3 + (1461*24 + (365*3 + 365)))) / 146097 = qa := by omega
      have r400 : (146097*qa + (36524*3 + (1461*24 + (365*3 + 365)))) % 146097 = 146096 := by omega
      rw [e400, r400]
      norm_num
      omega
    · have e400 : (146097*qa + (36524*qb + (1461*qc + (365*3 + 365)))) / 146097 = qa := by omega
      have r400 : (146097*qa + (36524*qb + (1461*qc + (365*3 + 365)))) % 146097
          = 36524*qb + (1461*qc + 1460) := by omega
      have e100 : (36524*qb + (1461*qc + 1460)) / 36524 = qb := by omega
      have r100 : (36524*qb + (1461*qc + 1460)) % 36524 = 1461*qc + 1460 := by omega
      have e4 : (1461*qc + 1460) / 1461 = qc := by omega
      have r4 : (1461*qc + 1460) % 1461 = 1460 := by omega
      rw [e400, r400, e100, r100, e4, r4]
      norm_num
      omega
  · -- normal case
    have hK364 : K ≤ 364 := by omega
    have e400 : (146097*qa + (36524*qb + (1461*qc + (365*qd + K)))) / 146097 = qa := by omega
    have r400 : (146097*qa + (36524*qb + (1461*qc + (365*qd + K)))) % 146097
        = 36524*qb + (1461*qc + (365*qd + K)) := by omega
    have e100 : (36524*qb + (1461*qc + (365*qd + K))) / 36524 = qb := by omega
    have r100 : (36524*qb + (1461*qc + (365*qd + K))) % 36524 = 1461*qc + (365*qd + K) := by omega
    have e4 : (1461*qc + (365*qd + K)) / 1461 = qc := by omega
    have r4 : (1461*qc + (365*qd + K)) % 1461 = 365*qd + K := by omega
    have e1 : (365*qd + K) / 365 = qd := by omega
    have r1 : (365*qd + K) % 365 = K := by omega
    rw [e400, r400, e100, r100, e4, r4, e1, r1]
    rw [if_neg (by omega)]
    have hyear : qa * 400 + qb * 100 + qc * 4 + qd + 1 = y := by omega
    have hLiff : (decide (qd = 3 ∧ (qc ≠ 24 ∨ qb = 3)) = true) ↔ leapBit y = 1 := by
      rw [decide_eq_true_eq]
      constructor
      · intro hcc
        rw [if_pos hcc] at hleap
        exact hleap
      · intro h1
        by_contra hcc
        rw [if_neg hcc] at hleap
        omega
    have hKr : K = dbmN m + (if 2 < m ∧ (decide (qd = 3 ∧ (qc ≠ 24 ∨ qb = 3))) = true then 1 else 0) + d - 1 := by
      rw [hK]
      rcases Bool.eq_false_or_eq_true (decide (qd = 3 ∧ (qc ≠ 24 ∨ qb = 3))) with hb | hb
      · have hly : leapBit y = 1 := hLiff.mp hb
        rw [hb, hly]
        simp only [eq_self_iff_true, and_true]
        split_ifs <;> omega
      · have hly : leapBit y = 0 := by
          by_contra hne
          have h2 := hLiff.mpr (by omega)
          rw [h2] at hb
          exact absurd hb (by decide)
        rw [hb, hly]
        simp only [Bool.false_eq_true, and_false, if_false]
        split_ifs <;> omega
    have hdbound : d ≤ dimN m + (if m = 2 ∧ (decide (qd = 3 ∧ (qc ≠ 24 ∨ qb = 3))) = true then 1 else 0) := by
      rcases Bool.eq_false_or_eq_true (decide (qd = 3 ∧ (qc ≠ 24 ∨ qb = 3))) with hb | hb
      · have hly : leapBit y = 1 := hLiff.mp hb
        rw [hb]
        simp only [eq_self_iff_true, and_true]
        rw [hly] at hdim
        split_ifs at hdim ⊢ <;> omega
      · have hly : leapBit y = 0 := by
          by_contra hne
          have h2 := hLiff.mpr (by omega)
          rw [h2] at hb
          exact absurd hb (by decide)
        rw [hb]
        simp only [Bool.false_eq_true, and_false, if_false]
        rw [hly] at hdim
        split_ifs at hdim <;> omega
    have hcor := monthFromDOY_correct (decide (qd = 3 ∧ (qc ≠ 24 ∨ qb = 3))) m d hm1 hm2 hd1 hdbound
    rw [hKr, hcor, hyear]

theorem dateToDays_ord (y m d : Nat) (hy : 1970 ≤ y) (hd : 1 ≤ d) :
    719163 + dateToDays y m d = daysBefore01 y + (daysBeforeMonth y m + d) := by
  unfold dateToDays
  have h1 := daysFrom1970_eq (y - 1970)
  have he : 1970 + (y - 1970) = y := by omega
  rw [he] at h1
  omega

theorem epochDaysToYMD_inv (y m d : Nat) (hy : 1970 ≤ y)
    (hm1 : 1 ≤ m) (hm2 : m ≤ 12) (hd1 : 1 ≤ d) (hd2 : d ≤ daysInMonth y m) :
    epochDaysToYMD (dateToDays y m d) = (y, m, d) := by
  unfold epochDaysToYMD
  rw [dateToDays_ord y m d hy hd1]
  exact ord2ymd_inv y m d (by omega) hm1 hm2 hd1 hd2

theorem monthStart_next (y m : Nat) (hy : 1970 ≤ y) (hm1 : 1 ≤ m) (hm2 : m ≤ 12) :
    monthStart (nextMonth y m).1 (nextMonth y m).2 = monthStart y m + daysInMonth y m := by
  unfold nextMonth monthStart dateToDays
  by_cases h12 : m = 12
  · subst h12
    rw [if_pos rfl]
    have hstep : daysFrom1970 (y + 1 - 1970) = daysFrom1970 (y - 1970) + 365 + leapBit y := by
      have he : y + 1 - 1970 = (y - 1970) + 1 := by omega
      rw [he]
      have he2 : 1970 + (y - 1970) = y := by omega
      show daysFrom1970 (y - 1970) + 365 + leapBit (1970 + (y - 1970)) = _
      rw [he2]
    have hb1 : daysBeforeMonth (y+1) 1 = 0 := rfl
    have hb12 := dbm_closed y 12 (by omega) (by omega)
    have hd12 := daysInMonth_eq y 12 (by omega) (by omega)
    rw [hstep, hb1, hb12, hd12]
    norm_num [dbmN, dimN]
    omega
  · rw [if_neg h12]
    obtain ⟨k, rfl⟩ : ∃ k, m = k + 1 := ⟨m - 1, by omega⟩
    have hstep : daysBeforeMonth y (k+2) = daysBeforeMonth y (k+1) + daysInMonth y (k+1) := rfl
    simp only []
    rw [hstep]
    omega

theorem epochDays_in_month (y m z : Nat) (hy : 1970 ≤ y) (hm1 : 1 ≤ m) (hm2 : m ≤ 12)
    (hz1 : monthStart y m ≤ z) (hz2 : z < monthStart (nextMonth y m).1 (nextMonth y m).2) :
    epochDaysToYMD z = (y, m, z - monthStart y m + 1) := by
  have hnext := monthStart_next y m hy hm1 hm2
  set k := z - monthStart y m with hkdef
  have hzd : z = dateToDays y m (k + 1) := by
    rw [hkdef]
    unfold monthStart dateToDays at *
    omega
  have hkb : k + 1 ≤ daysInMonth y m := by
    rw [hkdef]
    unfold monthStart dateToDays at *
    omega
  rw [hzd]
  exact epochDaysToYMD_inv y m (k + 1) hy hm1 hm2 (by omega) hkb

theorem utcYM_in_month (y m e : Nat) (hy : 1970 ≤ y) (hm1 : 1 ≤ m) (hm2 : m ≤ 12)
    (h1 : monthStartMs y m ≤ e) (h2 : e < monthStartMs (nextMonth y m).1 (nextMonth y m).2) :
    utcYM e = (y, m) := by
  unfold utcYM
  have hdd : e / 1000 / 86400 = e / 86400000 := by
    rw [Nat.div_div_eq_div_mul]
  have hlo : monthStart y m ≤ e / 86400000 := by
    rw [Nat.le_div_iff_mul_le (by norm_num)]
    unfold monthStartMs at h1
    omega
  have hhi : e / 86400000 < monthStart (nextMonth y m).1 (nextMonth y m).2 := by
    rw [Nat.div_lt_iff_lt_mul (by norm_num)]
    unfold monthStartMs at h2
    omega
  rw [hdd, epochDays_in_month y m (e / 86400000) hy hm1 hm2 hlo hhi]


theorem natDigits_acc (f : Nat) : ∀ n acc, natDigits f n acc = natDigits f n [] ++ acc := by
  induction f with
  | zero => intro n acc; rfl
  | succ f' ih =>
    intro n acc
    by_cases h : n < 10
    · simp [natDigits, if_pos h]
    · simp only [natDigits, if_neg h]
      rw [ih (n/10) (Char.ofNat (48 + n % 10) :: acc), ih (n/10) [Char.ofNat (48 + n % 10)]]
      simp

theorem char_digit_toNat (k : Nat) (h : k ≤ 9) : (Char.ofNat (48 + k)).toNat = 48 + k := by
  interval_cases k <;> decide

theorem char_digit_isDigit (k : Nat) (h : k ≤ 9) : (Char.ofNat (48 + k)).isDigit = true := by
  interval_cases k <;> decide

theorem natOfDigits_append_one (l : List Char) (c : Char) :
    natOfDigits (l ++ [c]) = 10 * natOfDigits l + (c.toNat - 48) := by
  unfold natOfDigits
  rw [List.foldl_append]
  rfl

theorem natDigits_all_digit (f : Nat) : ∀ n c, c ∈ natDigits f n [] → c.isDigit = true := by
  induction f with
  | zero => intro n c hc; simp [natDigits] at hc
  | succ f' ih =>
    intro n c hc
    by_cases h : n < 10
    · simp [natDigits, if_pos h] at hc
      rw [hc]
      exact char_digit_isDigit n (by omega)
    · simp only [natDigits, if_neg h] at hc
      rw [natDigits_acc] at hc
      rcases List.mem_append.mp hc with h1 | h2
      · exact ih (n/10) c h1
      · simp at h2
        rw [h2]
        exact char_digit_isDigit (n % 10) (by omega)

theorem natDigits_roundtrip (f : Nat) : ∀ n, n < f → natOfDigits (natDigits f n []) = n := by
  induction f with
  | zero => intro n h; omega
  | succ f' ih =>
    intro n h
    by_cases h10 : n < 10
    · simp [natDigits, if_pos h10, natOfDigits, List.foldl]
      rw [char_digit_toNat n (by omega)]
      omega
    · simp only [natDigits, if_neg h10]
      rw [natDigits_acc]
      rw [natOfDigits_append_one]
      rw [ih (n/10) (by omega)]
      rw [char_digit_toNat (n % 10) (by omega)]
      omega

theorem natOfDigits_zeros (k : Nat) : ∀ l, natOfDigits (List.replicate k '0' ++ l) = natOfDigits l := by
  induction k with
  | zero => intro l; rfl
  | succ k' ih =>
    intro l
    show natOfDigits ('0' :: (List.replicate k' '0' ++ l)) = _
    unfold natOfDigits at *
    simp only [List.foldl_cons]
    have h0 : (10 * 0 + ('0'.toNat - 48)) = 0 := by decide
    rw [h0]
    exact ih l

theorem padZeros_all_digit (w : Nat) (l : List Char) (h : ∀ c ∈ l, c.isDigit = true) :
    ∀ c ∈ padZeros w l, c.isDigit = true := by
  intro c hc
  unfold padZeros at hc
  rcases List.mem_append.mp hc with h1 | h2
  · have := List.eq_of_mem_replicate h1
    rw [this]
    decide
  · exact h c h2

theorem natOfDigits_padZeros (w : Nat) (l : List Char) :
    natOfDigits (padZeros w l) = natOfDigits l := natOfDigits_zeros _ l

theorem pad4_val (n : Nat) : natOfDigits (padZeros 4 (natDigits (n+1) n [])) = n := by
  rw [natOfDigits_padZeros]
  exact natDigits_roundtrip (n+1) n (by omega)

theorem pad2_val (n : Nat) : natOfDigits (padZeros 2 (natDigits (n+1) n [])) = n := by
  rw [natOfDigits_padZeros]
  exact natDigits_roundtrip (n+1) n (by omega)

theorem digit_not_ws (c : Char) (h : c.isDigit = true) : pyWs c = false := by
  by_contra hw
  have hw' : pyWs c = true := by
    cases hpw : pyWs c
    · exact absurd hpw hw
    · rfl
  unfold pyWs at hw'
  simp only [Bool.or_eq_true, decide_eq_true_eq] at hw'
  rcases hw' with ((((h1 | h1) | h1) | h1) | h1) | h1 <;>
    (subst h1; exact absurd h (by decide))

theorem dropWhile_head_false {p : Char → Bool} (l : List Char) (h : headFails p l) :
    l.dropWhile p = l := by
  rcases h with h | ⟨c, t, rfl, hc⟩
  · subst h; rfl
  · simp only [List.dropWhile_cons, hc]
    simp

theorem span_digits_append (l1 l2 : List Char) (h1 : ∀ c ∈ l1, c.isDigit = true)
    (h2 : headFails Char.isDigit l2) :
    (l1 ++ l2).takeWhile Char.isDigit = l1 ∧ (l1 ++ l2).dropWhile Char.isDigit = l2 := by
  induction l1 with
  | nil =>
    constructor
    · rcases h2 with h2 | ⟨c, t, rfl, hc⟩
      · subst h2; rfl
      · simp only [List.nil_append, List.takeWhile_cons, hc]
        simp
    · exact dropWhile_head_false l2 h2
  | cons a t ih =>
    have ha : a.isDigit = true := h1 a (by simp)
    have iht := ih (fun c hc => h1 c (by simp [hc]))
    constructor
    · simp only [List.cons_append, List.takeWhile_cons, ha]
      simp [iht.1]
    · simp only [List.cons_append, List.dropWhile_cons, ha]
      simp [iht.2]

theorem headFails_ws_of_digits (l : List Char) (h : ∀ c ∈ l, c.isDigit = true) :
    headFails pyWs l := by
  match l with
  | [] => exact Or.inl rfl
  | c :: t => exact Or.inr ⟨c, t, rfl, digit_not_ws c (h c (by simp))⟩

theorem stripChars_of_no_ws (l : List Char) (h : ∀ c ∈ l, pyWs c = false) :
    stripChars l = l := by
  unfold stripChars
  have h1 : l.dropWhile pyWs = l := by
    apply dropWhile_head_false
    match l with
    | [] => exact Or.inl rfl
    | c :: t => exact Or.inr ⟨c, t, rfl, h c (by simp)⟩
  rw [h1]
  have h2 : l.reverse.dropWhile pyWs = l.reverse := by
    apply dropWhile_head_false
    match hrev : l.reverse with
    | [] => exact Or.inl rfl
    | c :: t =>
      refine Or.inr ⟨c, t, rfl, h c ?_⟩
      rw [← List.mem_reverse, hrev]
      simp
  rw [h2, List.reverse_reverse]

theorem natDigits_len_le : ∀ k f n, n < f → n < 10 ^ k → 1 ≤ k → (natDigits f n []).length ≤ k := by
  intro k
  induction k with
  | zero => intro f n _ _ h; omega
  | succ k' ih =>
    intro f n hf hn _
    match f with
    | f' + 1 =>
      by_cases h10 : n < 10
      · simp [natDigits, if_pos h10]
      · simp only [natDigits, if_neg h10]
        rw [natDigits_acc]
        simp only [List.length_append, List.length_cons, List.length_nil]
        have hk' : 1 ≤ k' := by
          by_contra hz
          have : k' = 0 := by omega
          subst this
          simp at hn
          omega
        have := ih f' (n/10) (by omega) (by
          have : 10 * (n/10) ≤ n := Nat.mul_div_le n 10
          have hp : 10 ^ (k' + 1) = 10 * 10 ^ k' := by ring
          omega) hk'
        omega

theorem natDigits_len_ge : ∀ k f n, n < f → 10 ^ k ≤ n → k + 1 ≤ (natDigits f n []).length := by
  intro k
  induction k with
  | zero =>
    intro f n hf _
    match f with
    | f' + 1 =>
      by_cases h10 : n < 10
      · simp [natDigits, if_pos h10]
      · simp only [natDigits, if_neg h10]
        rw [natDigits_acc]
        simp
  | succ k' ih =>
    intro f n hf hn
    match f with
    | f' + 1 =>
      have h10 : ¬ n < 10 := by
        have : 10 ≤ 10 ^ (k' + 1) := by
          have : 10 ^ 1 ≤ 10 ^ (k' + 1) := Nat.pow_le_pow_right (by omega) (by omega)
          simpa using this
        omega
      simp only [natDigits, if_neg h10]
      rw [natDigits_acc]
      simp only [List.length_append, List.length_cons, List.length_nil]
      have := ih f' (n/10) (by omega) (by
        have hp : 10 ^ (k' + 1) = 10 ^ k' * 10 := by ring
        rw [hp] at hn
        exact Nat.le_div_iff_mul_le (by omega) |>.mpr hn)
      omega

theorem padZeros_len (w : Nat) (l : List Char) (h : l.length ≤ w) : (padZeros w l).length = w := by
  unfold padZeros
  simp only [List.length_append, List.length_replicate]
  omega

theorem pad4_toList_len (y : Nat) (hy : y ≤ 9999) :
    (padZeros 4 (natDigits (y+1) y [])).length = 4 := by
  apply padZeros_len
  exact natDigits_len_le 4 (y+1) y (by omega) (by omega) (by omega)

theorem pad2_toList_len (m : Nat) (hm : m ≤ 99) :
    (padZeros 2 (natDigits (m+1) m [])).length = 2 := by
  apply padZeros_len
  exact natDigits_len_le 2 (m+1) m (by omega) (by omega) (by omega)

theorem pad4_eq_natStr (n : Nat) (h1 : 1000 ≤ n) (h2 : n ≤ 9999) : pad4 n = natStr n := by
  unfold pad4 natStr padZeros
  have hle : (natDigits (n+1) n []).length ≤ 4 :=
    natDigits_len_le 4 (n+1) n (by omega) (by omega) (by omega)
  have hge : 4 ≤ (natDigits (n+1) n []).length := by
    have := natDigits_len_ge 3 (n+1) n (by omega) (by norm_num; omega)
    omega
  have heq : (natDigits (n+1) n []).length = 4 := by omega
  rw [heq]
  simp

theorem matchYearM_canonical (y m : Nat) (hy2 : y ≤ 9999) (hm : m ≤ 99) :
    matchYearM (padZeros 4 (natDigits (y+1) y []) ++ 'M' :: padZeros 2 (natDigits (m+1) m []))
      = some (y, m) := by
  have hYd : ∀ c ∈ padZeros 4 (natDigits (y+1) y []), c.isDigit = true :=
    padZeros_all_digit 4 _ (natDigits_all_digit (y+1) y)
  have hMd : ∀ c ∈ padZeros 2 (natDigits (m+1) m []), c.isDigit = true :=
    padZeros_all_digit 2 _ (natDigits_all_digit (m+1) m)
  have hspan := span_digits_append (padZeros 4 (natDigits (y+1) y []))
    ('M' :: padZeros 2 (natDigits (m+1) m [])) hYd
    (Or.inr ⟨'M', _, rfl, by decide⟩)
  have hMspan := span_digits_append (padZeros 2 (natDigits (m+1) m [])) [] hMd (Or.inl rfl)
  rw [List.append_nil] at hMspan
  simp only [matchYearM]
  rw [hspan.1, hspan.2, pad4_toList_len y hy2]
  rw [if_pos rfl]
  rw [dropWhile_head_false _ (Or.inr ⟨'M', _, rfl, by decide⟩)]
  dsimp only
  rw [if_pos (Or.inl rfl)]
  rw [dropWhile_head_false _ (headFails_ws_of_digits _ hMd)]
  rw [hMspan.1, hMspan.2, pad2_toList_len m hm]
  rw [if_pos (by exact ⟨Or.inr rfl, rfl⟩)]
  rw [pad4_val, pad2_val]

theorem matchMonthYear_canonical (y m : Nat) (hy2 : y ≤ 9999) (hm : m ≤ 99) :
    matchMonthYear (padZeros 2 (natDigits (m+1) m []) ++ '/' :: padZeros 4 (natDigits (y+1) y []))
      = some (m, y) := by
  have hYd : ∀ c ∈ padZeros 4 (natDigits (y+1) y []), c.isDigit = true :=
    padZeros_all_digit 4 _ (natDigits_all_digit (y+1) y)
  have hMd : ∀ c ∈ padZeros 2 (natDigits (m+1) m []), c.isDigit = true :=
    padZeros_all_digit 2 _ (natDigits_all_digit (m+1) m)
  have hspan := span_digits_append (padZeros 2 (natDigits (m+1) m []))
    ('/' :: padZeros 4 (natDigits (y+1) y [])) hMd
    (Or.inr ⟨'/', _, rfl, by decide⟩)
  have hYspan := span_digits_append (padZeros 4 (natDigits (y+1) y [])) [] hYd (Or.inl rfl)
  rw [List.append_nil] at hYspan
  simp only [matchMonthYear]
  rw [hspan.1, hspan.2, pad2_toList_len m hm]
  rw [if_pos (Or.inr rfl)]
  dsimp only
  rw [if_pos (Or.inl rfl)]
  rw [hYspan.1, hYspan.2, pad4_toList_len y hy2]
  rw [if_pos (by exact ⟨rfl, rfl⟩)]
  rw [pad4_val, pad2_val]

theorem matchYearMonth_canonical (y m : Nat) (hy2 : y ≤ 9999) (hm : m ≤ 99) :
    matchYearMonth (padZeros 4 (natDigits (y+1) y []) ++ '/' :: padZeros 2 (natDigits (m+1) m []))
      = some (y, m) := by
  have hYd : ∀ c ∈ padZeros 4 (natDigits (y+1) y []), c.isDigit = true :=
    padZeros_all_digit 4 _ (natDigits_all_digit (y+1) y)
  have hMd : ∀ c ∈ padZeros 2 (natDigits (m+1) m []), c.isDigit = true :=
    padZeros_all_digit 2 _ (natDigits_all_digit (m+1) m)
  have hspan := span_digits_append (padZeros 4 (natDigits (y+1) y []))
    ('/' :: padZeros 2 (natDigits (m+1) m [])) hYd
    (Or.inr ⟨'/', _, rfl, by decide⟩)
  have hMspan := span_digits_append (padZeros 2 (natDigits (m+1) m [])) [] hMd (Or.inl rfl)
  rw [List.append_nil] at hMspan
  simp only [matchYearMonth]
  rw [hspan.1, hspan.2, pad4_toList_len y hy2]
  rw [if_pos rfl]
  dsimp only
  rw [if_pos (Or.inl rfl)]
  rw [hMspan.1, hMspan.2, pad2_toList_len m hm]
  rw [if_pos (by exact ⟨Or.inr rfl, rfl⟩)]
  rw [pad4_val, pad2_val]

theorem matchYMD_canonical (y m d : Nat) (hy2 : y ≤ 9999) (hm : m ≤ 99) (hd : d ≤ 99) :
    matchYMD (padZeros 4 (natDigits (y+1) y []) ++
        '-' :: (padZeros 2 (natDigits (m+1) m []) ++ '-' :: padZeros 2 (natDigits (d+1) d [])))
      = some (String.mk (padZeros 4 (natDigits (y+1) y [])),
              String.mk (padZeros 2 (natDigits (m+1) m []))) := by
  have hYd : ∀ c ∈ padZeros 4 (natDigits (y+1) y []), c.isDigit = true :=
    padZeros_all_digit 4 _ (natDigits_all_digit (y+1) y)
  have hMd : ∀ c ∈ padZeros 2 (natDigits (m+1) m []), c.isDigit = true :=
    padZeros_all_digit 2 _ (natDigits_all_digit (m+1) m)
  have hDd : ∀ c ∈ padZeros 2 (natDigits (d+1) d []), c.isDigit = true :=
    padZeros_all_digit 2 _ (natDigits_all_digit (d+1) d)
  have hspan := span_digits_append (padZeros 4 (natDigits (y+1) y []))
    ('-' :: (padZeros 2 (natDigits (m+1) m []) ++ '-' :: padZeros 2 (natDigits (d+1) d []))) hYd
    (Or.inr ⟨'-', _, rfl, by decide⟩)
  have hMspan := span_digits_append (padZeros 2 (natDigits (m+1) m []))
    ('-' :: padZeros 2 (natDigits (d+1) d [])) hMd
    (Or.inr ⟨'-', _, rfl, by decide⟩)
  have hDspan := span_digits_append (padZeros 2 (natDigits (d+1) d [])) [] hDd (Or.inl rfl)
  rw [List.append_nil] at hDspan
  simp only [matchYMD]
  rw [hspan.1, hspan.2, pad4_toList_len y hy2]
  rw [if_pos rfl]
  dsimp only
  rw [if_pos rfl]
  rw [hMspan.1, hMspan.2, pad2_toList_len m hm]
  rw [if_pos rfl]
  dsimp only
  rw [if_pos rfl]
  rw [hDspan.1, hDspan.2, pad2_toList_len d hd]
  rw [if_pos (by exact ⟨rfl, rfl⟩)]

theorem matchYearM_sep_none (y : Nat) (hy2 : y ≤ 9999) (sep : Char) (hsep : sep.isDigit = false)
    (hsepws : pyWs sep = false)
    (hsepM : (sep = 'M' ∨ sep = 'm') → False) (rest : List Char) :
    matchYearM (padZeros 4 (natDigits (y+1) y []) ++ sep :: rest) = Option.none := by
  have hYd : ∀ c ∈ padZeros 4 (natDigits (y+1) y []), c.isDigit = true :=
    padZeros_all_digit 4 _ (natDigits_all_digit (y+1) y)
  have hspan := span_digits_append (padZeros 4 (natDigits (y+1) y [])) (sep :: rest) hYd
    (Or.inr ⟨sep, rest, rfl, hsep⟩)
  simp only [matchYearM]
  rw [hspan.1, hspan.2, pad4_toList_len y hy2]
  rw [if_pos rfl]
  rw [dropWhile_head_false _ (Or.inr ⟨sep, rest, rfl, hsepws⟩)]
  dsimp only
  rw [if_neg hsepM]

theorem matchMonthYear_len4_none (l : List Char)
    (h : (l.takeWhile Char.isDigit).length = 4) : matchMonthYear l = Option.none := by
  simp only [matchMonthYear]
  rw [h]
  rw [if_neg (by omega)]

theorem matchYearMonth_ymd_none (y m d : Nat) (hy2 : y ≤ 9999) (hm : m ≤ 99) (hd : d ≤ 99) :
    matchYearMonth (padZeros 4 (natDigits (y+1) y []) ++
        '-' :: (padZeros 2 (natDigits (m+1) m []) ++ '-' :: padZeros 2 (natDigits (d+1) d [])))
      = Option.none := by
  have hYd : ∀ c ∈ padZeros 4 (natDigits (y+1) y []), c.isDigit = true :=
    padZeros_all_digit 4 _ (natDigits_all_digit (y+1) y)
  have hMd : ∀ c ∈ padZeros 2 (natDigits (m+1) m []), c.isDigit = true :=
    padZeros_all_digit 2 _ (natDigits_all_digit (m+1) m)
  have hspan := span_digits_append (padZeros 4 (natDigits (y+1) y []))
    ('-' :: (padZeros 2 (natDigits (m+1) m []) ++ '-' :: padZeros 2 (natDigits (d+1) d []))) hYd
    (Or.inr ⟨'-', _, rfl, by decide⟩)
  have hMspan := span_digits_append (padZeros 2 (natDigits (m+1) m []))
    ('-' :: padZeros 2 (natDigits (d+1) d [])) hMd
    (Or.inr ⟨'-', _, rfl, by decide⟩)
  simp only [matchYearMonth]
  rw [hspan.1, hspan.2, pad4_toList_len y hy2]
  rw [if_pos rfl]
  dsimp only
  rw [if_pos (Or.inr rfl)]
  rw [hMspan.1, hMspan.2]
  rw [if_neg (by
    intro hcon
    exact absurd hcon.2 (by simp))]

theorem matchYearM_not4 (l : List Char) (h : (l.takeWhile Char.isDigit).length ≠ 4) :
    matchYearM l = Option.none := by
  simp only [matchYearM]
  rw [if_neg h]

theorem pad_noWs (w f n : Nat) : ∀ c ∈ padZeros w (natDigits f n []), pyWs c = false := by
  intro c hc
  exact digit_not_ws c (padZeros_all_digit w _ (natDigits_all_digit f n) c hc)

theorem normalize_period_strNoWs (gp : String → Option (Nat × Nat)) (l : List Char)
    (hnw : ∀ c ∈ l, pyWs c = false) :
    normalize_period gp (.str (String.mk l)) =
      (match matchYearM l with
       | some (y, m) => pad4 y ++ "-" ++ pad2 m
       | Option.none =>
       match matchMonthYear l with
       | some (m, y) => pad4 y ++ "-" ++ pad2 m
       | Option.none =>
       match matchYearMonth l with
       | some (y, m) => pad4 y ++ "-" ++ pad2 m
       | Option.none =>
       match matchYMD l with
       | some (g1, g2) => g1 ++ "-" ++ g2
       | Option.none =>
       match gp (String.mk l) with
       | some (y, m) => natStr y ++ "-" ++ pad2 m
       | Option.none => String.mk l) := by
  simp only [normalize_period, pyStr]
  have hstrip : pyStrip (String.mk l) = String.mk l := by
    unfold pyStrip
    rw [show (String.mk l).toList = l from rfl]
    rw [stripChars_of_no_ws l hnw]
  rw [hstrip]
  rfl

theorem normalize_period_enc1 (gp : String → Option (Nat × Nat)) (y m : Nat)
    (hy2 : y ≤ 9999) (hm : m ≤ 99) :
    normalize_period gp (.str (pad4 y ++ "M" ++ pad2 m)) = pad4 y ++ "-" ++ pad2 m := by
  have hl : (padZeros 4 (natDigits (y+1) y []) ++ ['M']) ++ padZeros 2 (natDigits (m+1) m [])
      = padZeros 4 (natDigits (y+1) y []) ++ 'M' :: padZeros 2 (natDigits (m+1) m []) := by
    simp
  have heq : pad4 y ++ "M" ++ pad2 m
      = String.mk (padZeros 4 (natDigits (y+1) y []) ++ 'M' :: padZeros 2 (natDigits (m+1) m [])) :=
    calc pad4 y ++ "M" ++ pad2 m
        = String.mk ((padZeros 4 (natDigits (y+1) y []) ++ ['M']) ++ padZeros 2 (natDigits (m+1) m [])) := rfl
      _ = _ := congrArg String.mk hl
  rw [heq]
  rw [normalize_period_strNoWs gp _ (by
    intro c hc
    rcases List.mem_append.mp hc with h1 | h2
    · exact pad_noWs 4 (y+1) y c h1
    · rcases List.mem_cons.mp h2 with rfl | h3
      · decide
      · exact pad_noWs 2 (m+1) m c h3)]
  rw [matchYearM_canonical y m hy2 hm]

theorem normalize_period_enc2 (gp : String → Option (Nat × Nat)) (y m : Nat)
    (hy2 : y ≤ 9999) (hm : m ≤ 99) :
    normalize_period gp (.str (pad2 m ++ "/" ++ pad4 y)) = pad4 y ++ "-" ++ pad2 m := by
  have hl : (padZeros 2 (natDigits (m+1) m []) ++ ['/']) ++ padZeros 4 (natDigits (y+1) y [])
      = padZeros 2 (natDigits (m+1) m []) ++ '/' :: padZeros 4 (natDigits (y+1) y []) := by
    simp
  have heq : pad2 m ++ "/" ++ pad4 y
      = String.mk (padZeros 2 (natDigits (m+1) m []) ++ '/' :: padZeros 4 (natDigits (y+1) y [])) :=
    calc pad2 m ++ "/" ++ pad4 y
        = String.mk ((padZeros 2 (natDigits (m+1) m []) ++ ['/']) ++ padZeros 4 (natDigits (y+1) y [])) := rfl
      _ = _ := congrArg String.mk hl
  rw [heq]
  rw [normalize_period_strNoWs gp _ (by
    intro c hc
    rcases List.mem_append.mp hc with h1 | h2
    · exact pad_noWs 2 (m+1) m c h1
    · rcases List.mem_cons.mp h2 with rfl | h3
      · decide
      · exact pad_noWs 4 (y+1) y c h3)]
  have hspan := span_digits_append (padZeros 2 (natDigits (m+1) m []))
    ('/' :: padZeros 4 (natDigits (y+1) y []))
    (padZeros_all_digit 2 _ (natDigits_all_digit (m+1) m))
    (Or.inr ⟨'/', _, rfl, by decide⟩)
  rw [matchYearM_not4 _ (by rw [hspan.1, pad2_toList_len m hm]; omega)]
  rw [matchMonthYear_canonical y m hy2 hm]

theorem normalize_period_enc3 (gp : String → Option (Nat × Nat)) (y m : Nat)
    (hy2 : y ≤ 9999) (hm : m ≤ 99) :
    normalize_period gp (.str (pad4 y ++ "/" ++ pad2 m)) = pad4 y ++ "-" ++ pad2 m := by
  have hl : (padZeros 4 (natDigits (y+1) y []) ++ ['/']) ++ padZeros 2 (natDigits (m+1) m [])
      = padZeros 4 (natDigits (y+1) y []) ++ '/' :: padZeros 2 (natDigits (m+1) m []) := by
    simp
  have heq : pad4 y ++ "/" ++ pad2 m
      = String.mk (padZeros 4 (natDigits (y+1) y []) ++ '/' :: padZeros 2 (natDigits (m+1) m [])) :=
    calc pad4 y ++ "/" ++ pad2 m
        = String.mk ((padZeros 4 (natDigits (y+1) y []) ++ ['/']) ++ padZeros 2 (natDigits (m+1) m [])) := rfl
      _ = _ := congrArg String.mk hl
  rw [heq]
  rw [normalize_period_strNoWs gp _ (by
    intro c hc
    rcases List.mem_append.mp hc with h1 | h2
    · exact pad_noWs 4 (y+1) y c h1
    · rcases List.mem_cons.mp h2 with rfl | h3
      · decide
      · exact pad_noWs 2 (m+1) m c h3)]
  rw [matchYearM_sep_none y hy2 '/' (by decide) (by decide) (by decide) _]
  have hspan := span_digits_append (padZeros 4 (natDigits (y+1) y []))
    ('/' :: padZeros 2 (natDigits (m+1) m []))
    (padZeros_all_digit 4 _ (natDigits_all_digit (y+1) y))
    (Or.inr ⟨'/', _, rfl, by decide⟩)
  rw [matchMonthYear_len4_none _ (by rw [hspan.1]; exact pad4_toList_len y hy2)]
  rw [matchYearMonth_canonical y m hy2 hm]

theorem normalize_period_enc4 (gp : String → Option (Nat × Nat)) (y m d : Nat)
    (hy2 : y ≤ 9999) (hm : m ≤ 99) (hd : d ≤ 99) :
    normalize_period gp (.str (pad4 y ++ "-" ++ pad2 m ++ "-" ++ pad2 d)) = pad4 y ++ "-" ++ pad2 m := by
  have hl : (((padZeros 4 (natDigits (y+1) y []) ++ ['-']) ++ padZeros 2 (natDigits (m+1) m [])) ++ ['-'])
        ++ padZeros 2 (natDigits (d+1) d [])
      = padZeros 4 (natDigits (y+1) y []) ++
          '-' :: (padZeros 2 (natDigits (m+1) m []) ++ '-' :: padZeros 2 (natDigits (d+1) d [])) := by
    simp
  have heq : pad4 y ++ "-" ++ pad2 m ++ "-" ++ pad2 d
      = String.mk (padZeros 4 (natDigits (y+1) y []) ++
          '-' :: (padZeros 2 (natDigits (m+1) m []) ++ '-' :: padZeros 2 (natDigits (d+1) d []))) :=
    calc pad4 y ++ "-" ++ pad2 m ++ "-" ++ pad2 d
        = String.mk ((((padZeros 4 (natDigits (y+1) y []) ++ ['-']) ++ padZeros 2 (natDigits (m+1) m [])) ++ ['-'])
            ++ padZeros 2 (natDigits (d+1) d [])) := rfl
      _ = _ := congrArg String.mk hl
  rw [heq]
  rw [normalize_period_strNoWs gp _ (by
    intro c hc
    rcases List.mem_append.mp hc with h1 | h2
    · exact pad_noWs 4 (y+1) y c h1
    · rcases List.mem_cons.mp h2 with rfl | h3
      · decide
      · rcases List.mem_append.mp h3 with h4 | h5
        · exact pad_noWs 2 (m+1) m c h4
        · rcases List.mem_cons.mp h5 with rfl | h6
          · decide
          · exact pad_noWs 2 (d+1) d c h6)]
  rw [matchYearM_sep_none y hy2 '-' (by decide) (by decide) (by decide) _]
  have hspan := span_digits_append (padZeros 4 (natDigits (y+1) y []))
    ('-' :: (padZeros 2 (natDigits (m+1) m []) ++ '-' :: padZeros 2 (natDigits (d+1) d [])))
    (padZeros_all_digit 4 _ (natDigits_all_digit (y+1) y))
    (Or.inr ⟨'-', _, rfl, by decide⟩)
  rw [matchMonthYear_len4_none _ (by rw [hspan.1]; exact pad4_toList_len y hy2)]
  rw [matchYearMonth_ymd_none y m d hy2 hm hd]
  rw [matchYMD_canonical y m d hy2 hm hd]
  rfl

theorem daysFrom1970_mono : ∀ j k : Nat, j ≤ k → daysFrom1970 j ≤ daysFrom1970 k := by
  intro j k
  induction k with
  | zero =>
    intro h
    have hj : j = 0 := by omega
    subst hj
    exact Nat.le_refl _
  | succ n ih =>
    intro h
    by_cases hj : j = n + 1
    · subst hj
      exact Nat.le_refl _
    · have h1 := ih (by omega)
      have h2 : daysFrom1970 (n+1) = daysFrom1970 n + 365 + leapBit (1970+n) := rfl
      omega

theorem daysFrom1970_8030 : daysFrom1970 8030 = 2932897 := by
  have h := daysFrom1970_eq 8030
  have h2 : daysBefore01 (1970 + 8030) = 3652059 := by norm_num [daysBefore01]
  omega

theorem nextMonthStart_le_cap (y m : Nat) (hy1 : 1970 ≤ y) (hy2 : y ≤ 9999)
    (hm1 : 1 ≤ m) (hm2 : m ≤ 12) :
    monthStart (nextMonth y m).1 (nextMonth y m).2 ≤ 2932897 := by
  unfold nextMonth monthStart dateToDays
  by_cases h12 : m = 12
  · subst h12
    rw [if_pos rfl]
    simp only []
    have hb : daysBeforeMonth (y+1) 1 = 0 := rfl
    rw [hb]
    have hmono := daysFrom1970_mono (y+1-1970) 8030 (by omega)
    rw [daysFrom1970_8030] at hmono
    omega
  · rw [if_neg h12]
    simp only []
    have hdbm := dbm_closed y (m+1) (by omega) (by omega)
    have hlb := leapBit_le y
    have hdle : (if 2 < m + 1 then leapBit y else 0) ≤ 1 := by split <;> omega
    have hdbmN : dbmN (m+1) ≤ 334 := by interval_cases m <;> decide
    have hstep : daysFrom1970 (y-1970+1) = daysFrom1970 (y-1970) + 365 + leapBit (1970 + (y-1970)) := rfl
    have hmono := daysFrom1970_mono (y-1970+1) 8030 (by omega)
    rw [daysFrom1970_8030] at hmono
    omega

theorem periodOf_epoch (gp : String → Option (Nat × Nat)) (y m e : Nat)
    (hy1 : 1970 ≤ y) (hy2 : y ≤ 9999) (hm1 : 1 ≤ m) (hm2 : m ≤ 12)
    (he1 : monthStartMs y m ≤ e) (he2 : e < monthStartMs (nextMonth y m).1 (nextMonth y m).2)
    (he3 : 10000000 < e) :
    periodOf gp (.int e) = .ok (pad4 y ++ "-" ++ pad2 m) := by
  have hcap0 := nextMonthStart_le_cap y m hy1 hy2 hm1 hm2
  have hcap : e < 253402300800000 := by
    unfold monthStartMs at he2
    have : monthStart (nextMonth y m).1 (nextMonth y m).2 * 86400000 ≤ 2932897 * 86400000 :=
      Nat.mul_le_mul_right _ hcap0
    omega
  simp only [periodOf]
  rw [if_pos (by exact_mod_cast he3)]
  have htn : ((e : Int)).toNat = e := Int.toNat_ofNat e
  rw [htn]
  simp only [epochPeriodE]
  rw [if_pos hcap]
  unfold epochStr
  rw [utcYM_in_month y m e hy1 hm1 hm2 he1 he2]
  rw [← pad4_eq_natStr y (by omega) hy2]

/-- C2 (corrected claim, counterexample part): the epoch-milliseconds
value 5000000 falls inside the calendar month January 1970, yet the period
handling of read_json does not map it to the canonical "1970-01": the
numeric-epoch check requires the value to exceed 10000000, so the value
falls through to normalize_period, which returns the digit string
unchanged.  This refutes the claim as stated for the month 1970-01. -/
theorem period_epoch_small_not_canonical :
    monthStartMs 1970 1 ≤ 5000000 ∧ 5000000 < monthStartMs 1970 2 ∧
    periodOf pd_to_datetime_model (.int 5000000) = .ok "5000000" ∧
    normalize_period pd_to_datetime_model (.str "1970M01") = "1970-01" ∧
    ("5000000" : String) ≠ "1970-01" := by
  refine ⟨by decide, by decide, by rfl, by rfl, by decide⟩

/-- C2 (amended): for every calendar month from 1970 through 9999 and
every epoch-milliseconds instant of that month that exceeds the
10_000_000 threshold (all instants from 1970-01-01T02:46:40Z on), the five
supported encodings — epoch milliseconds, "YYYYMmm", "mm/YYYY", "YYYY/mm"
and "YYYY-mm-dd" — all normalize to the same canonical "YYYY-MM" string.
The generic date parser gp is universally quantified: the numeric-epoch
check fires before normalize_period is consulted, and the fixed-width
patterns fire in their priority order before the generic parse, so the
result does not depend on gp. -/
theorem period_encodings_agree (gp : String → Option (Nat × Nat)) (y m d e : Nat)
    (hy1 : 1970 ≤ y) (hy2 : y ≤ 9999) (hm1 : 1 ≤ m) (hm2 : m ≤ 12)
    (hd1 : 1 ≤ d) (hd2 : d ≤ daysInMonth y m)
    (he1 : monthStartMs y m ≤ e) (he2 : e < monthStartMs (nextMonth y m).1 (nextMonth y m).2)
    (he3 : 10000000 < e) :
    periodOf gp (.int e) = .ok (pad4 y ++ "-" ++ pad2 m) ∧
    normalize_period gp (.str (pad4 y ++ "M" ++ pad2 m)) = pad4 y ++ "-" ++ pad2 m ∧
    normalize_period gp (.str (pad2 m ++ "/" ++ pad4 y)) = pad4 y ++ "-" ++ pad2 m ∧
    normalize_period gp (.str (pad4 y ++ "/" ++ pad2 m)) = pad4 y ++ "-" ++ pad2 m ∧
    normalize_period gp (.str (pad4 y ++ "-" ++ pad2 m ++ "-" ++ pad2 d)) = pad4 y ++ "-" ++ pad2 m := by
  refine ⟨periodOf_epoch gp y m e hy1 hy2 hm1 hm2 he1 he2 he3, ?_, ?_, ?_, ?_⟩
  · exact normalize_period_enc1 gp y m hy2 (by omega)
  · exact normalize_period_enc2 gp y m hy2 (by omega)
  · exact normalize_period_enc3 gp y m hy2 (by omega)
  · have hdim := daysInMonth_eq y m hm1 hm2
    have hlb := leapBit_le y
    have hdimN : dimN m ≤ 31 := by interval_cases m <;> decide
    exact normalize_period_enc4 gp y m d hy2 (by omega) (by split at hdim <;> omega)

/-- C2 witness: the month 2024-01, with the epoch value 1705276800000
(2024-01-15T00:00:00Z), instantiates the amended claim. -/
theorem period_encodings_agree_witness :
    periodOf pd_to_datetime_model (.int 1705276800000) = .ok (pad4 2024 ++ "-" ++ pad2 1) ∧
    normalize_period pd_to_datetime_model (.str (pad4 2024 ++ "M" ++ pad2 1))
      = pad4 2024 ++ "-" ++ pad2 1 ∧
    normalize_period pd_to_datetime_model (.str (pad2 1 ++ "/" ++ pad4 2024))
      = pad4 2024 ++ "-" ++ pad2 1 ∧
    normalize_period pd_to_datetime_model (.str (pad4 2024 ++ "/" ++ pad2 1))
      = pad4 2024 ++ "-" ++ pad2 1 ∧
    normalize_period pd_to_datetime_model (.str (pad4 2024 ++ "-" ++ pad2 1 ++ "-" ++ pad2 15))
      = pad4 2024 ++ "-" ++ pad2 1 := by
  exact period_encodings_agree pd_to_datetime_model 2024 1 15 1705276800000
    (by decide) (by decide) (by decide) (by decide) (by decide) (by decide)
    (by decide) (by decide) (by decide)

/-- C1 (code bug): main resolves the name read_json_records in the module
globals when the loop body executes its call, but the module defines no
such name (the reader is called read_json), so the very first indicator
raises an uncaught NameError and the run aborts — contradicting the claim
that no error raised while processing an indicator is fatal.  For every
nonempty indicator list, over every file system and generic parser, the
loop returns the NameError instead of completing. -/
theorem main_nameerror_aborts :
    ("read_json_records" ∉ pyGlobalNames) ∧
    ∀ gp fs ids gen, ids ≠ [] → mainLoop gp fs ids gen = .error .nameError := by
  refine ⟨by decide, ?_⟩
  intro gp fs ids gen hne
  match ids with
  | [] => exact absurd rfl hne
  | (tid, title) :: rest =>
    simp only [mainLoop]
    rw [if_neg (by decide)]

/-- C1 witness: a single concrete indicator id aborts the loop with
NameError. -/
theorem main_nameerror_aborts_witness :
    ([("1001", "Tabla 1001")] : List (String × String)) ≠ [] ∧
    mainLoop pd_to_datetime_model (fun _ => Option.none) [("1001", "Tabla 1001")] 0
      = .error .nameError := by
  refine ⟨by decide, ?_⟩
  exact main_nameerror_aborts.2 pd_to_datetime_model (fun _ => Option.none) _ 0 (by decide)

/-- C3: the delta is (last - previous) / previous * 100 when both values
are present and the previous is nonzero (110 against 100 gives 10), and
the no-prior-data marker when the previous is absent or zero or when the
dataset has fewer than two observations; the zero-previous case is
guarded before the division. -/
theorem pct_change_delta_spec :
    (∀ a b : ℚ, b ≠ 0 → pct_change (some a) (some b) = some ((a - b) / b * 100)) ∧
    pct_change (some 110) (some 100) = some 10 ∧
    (∀ a : Option ℚ, pct_change a (some 0) = Option.none) ∧
    (∀ a : Option ℚ, pct_change a Option.none = Option.none) ∧
    (∀ b : Option ℚ, pct_change Option.none b = Option.none) ∧
    (∀ data : List Obs, data.length < 2 → mainDelta data = Option.none) := by
  have hformula : ∀ a b : ℚ, b ≠ 0 → pct_change (some a) (some b) = some ((a - b) / b * 100) := by
    intro a b hb
    unfold pct_change
    rw [if_neg (by
      intro hcon
      rcases hcon with h | h | h
      · exact Option.noConfusion h
      · exact hb (Option.some.injEq b 0 ▸ h ▸ rfl)
      · exact Option.noConfusion h)]
    simp [Option.getD]
  refine ⟨hformula, ?_, ?_, ?_, ?_, ?_⟩
  · rw [hformula 110 100 (by norm_num)]
    norm_num
  · intro a
    unfold pct_change
    rw [if_pos (Or.inr (Or.inl rfl))]
  · intro a
    unfold pct_change
    rw [if_pos (Or.inl rfl)]
  · intro b
    unfold pct_change
    by_cases hb : b = Option.none ∨ b = some 0
    · rw [if_pos (by tauto)]
    · rw [if_pos (Or.inr (Or.inr rfl))]
  · intro data h
    match data with
    | [] => rfl
    | [a] =>
      show pct_change (to_float (.float a.value)) Option.none = Option.none
      unfold pct_change
      rw [if_pos (Or.inl rfl)]
    | a :: b :: t => simp at h; omega

/-- C3 witness: the examples of the claim instantiated. -/
theorem pct_change_delta_spec_witness :
    ((100 : ℚ) ≠ 0 ∧ pct_change (some 110) (some 100) = some ((110 - 100) / 100 * 100)) ∧
    (([⟨"2024-01", 5⟩] : List Obs).length < 2 ∧ mainDelta [⟨"2024-01", 5⟩] = Option.none) := by
  refine ⟨⟨by decide, ?_⟩, by decide, ?_⟩
  · exact pct_change_delta_spec.1 110 100 (by decide)
  · exact pct_change_delta_spec.2.2.2.2.2 [⟨"2024-01", 5⟩] (by decide)

/-- C9: a record whose primary value key holds the number 0 while the
alternate value key is absent is dropped by both record loops whenever
its processing completes: the or-chain skips the falsy 0, the alternate
yields None, to_float maps None to the absent marker, and the keep test
rejects the record. -/
theorem zero_primary_value_dropped :
    (∀ gp d r, pyGet d "value" = .int 0 → pyGet d "Valor" = .none →
      normRecA gp d = .ok r → r = Option.none) ∧
    (∀ gp d r, pyGet d "Valor" = .int 0 → pyGet d "value" = .none →
      normRecBC gp d = .ok r → r = Option.none) := by
  constructor
  · intro gp d r h1 h2 h3
    match d with
    | .none => simp [pyGet] at h1
    | .bool b => simp [pyGet] at h1
    | .int n => simp [pyGet] at h1
    | .float q => simp [pyGet] at h1
    | .nan => simp [pyGet] at h1
    | .str s => simp [pyGet] at h1
    | .list xs => simp [pyGet] at h1
    | .dict kvs =>
      have hval : pyOr (pyGet (.dict kvs) "value") (pyGet (.dict kvs) "Valor") = Py.none := by
        rw [h1, h2]
        rfl
      simp only [normRecA] at h3
      rw [hval] at h3
      rcases hp : periodOf gp (pyOr (pyOr (pyGet (.dict kvs) "period") (pyGet (.dict kvs) "Periodo"))
          (pyGet (.dict kvs) "Fecha")) with e | per
      · rw [hp] at h3
        exact Except.noConfusion h3
      · rw [hp] at h3
        have : (Except.ok (Option.none) : Except PyErr (Option Obs)) = .ok r := h3
        exact (Except.ok.injEq _ _ ▸ this).symm
  · intro gp d r h1 h2 h3
    match d with
    | .none => simp [pyGet] at h1
    | .bool b => simp [pyGet] at h1
    | .int n => simp [pyGet] at h1
    | .float q => simp [pyGet] at h1
    | .nan => simp [pyGet] at h1
    | .str s => simp [pyGet] at h1
    | .list xs => simp [pyGet] at h1
    | .dict kvs =>
      have hval : pyOr (pyGet (.dict kvs) "Valor") (pyGet (.dict kvs) "value") = Py.none := by
        rw [h1, h2]
        rfl
      simp only [normRecBC] at h3
      rw [hval] at h3
      rcases hp : periodOf gp (pyOr (pyOr (pyGet (.dict kvs) "Fecha") (pyGet (.dict kvs) "Periodo"))
          (pyGet (.dict kvs) "period")) with e | per
      · rw [hp] at h3
        exact Except.noConfusion h3
      · rw [hp] at h3
        have : (Except.ok (Option.none) : Except PyErr (Option Obs)) = .ok r := h3
        exact (Except.ok.injEq _ _ ▸ this).symm

/-- C9 witness: a concrete record with value 0 and no Valor key is
dropped by the flat branch, and symmetrically for the Data branch. -/
theorem zero_primary_value_dropped_witness :
    (pyGet (.dict [("period", .str "2024M01"), ("value", .int 0)]) "value" = .int 0 ∧
     pyGet (.dict [("period", .str "2024M01"), ("value", .int 0)]) "Valor" = .none ∧
     (Option.none : Option Obs) = Option.none) ∧
    (pyGet (.dict [("Fecha", .str "2024M01"), ("Valor", .int 0)]) "Valor" = .int 0 ∧
     pyGet (.dict [("Fecha", .str "2024M01"), ("Valor", .int 0)]) "value" = .none ∧
     (Option.none : Option Obs) = Option.none) := by
  refine ⟨⟨rfl, rfl, ?_⟩, rfl, rfl, ?_⟩
  · exact zero_primary_value_dropped.1 pd_to_datetime_model
      (.dict [("period", .str "2024M01"), ("value", .int 0)]) Option.none rfl rfl rfl
  · exact zero_primary_value_dropped.2 pd_to_datetime_model
      (.dict [("Fecha", .str "2024M01"), ("Valor", .int 0)]) Option.none rfl rfl rfl

/-- C10: a numeric period is interpreted as epoch milliseconds exactly
when it strictly exceeds 10_000_000; on and below the threshold it is
passed through normalize_period, the string-based path — in particular a
bare year such as 2024 is rendered by str() and handed to the pattern
chain and generic parser. -/
theorem epoch_threshold_routing :
    (∀ gp (n : Int), 10000000 < n → periodOf gp (.int n) = epochPeriodE n.toNat) ∧
    (∀ gp (n : Int), n ≤ 10000000 → periodOf gp (.int n) = .ok (normalize_period gp (.int n))) ∧
    (∀ gp (q : ℚ), 10000000 < q → periodOf gp (.float q) = epochPeriodE (Int.floor q).toNat) ∧
    (∀ gp (q : ℚ), q ≤ 10000000 → periodOf gp (.float q) = .ok (normalize_period gp (.float q))) ∧
    (∀ gp, periodOf gp (.int 2024) = .ok (normalize_period gp (.str "2024"))) := by
  refine ⟨?_, ?_, ?_, ?_, ?_⟩
  · intro gp n h
    simp only [periodOf]
    rw [if_pos h]
  · intro gp n h
    simp only [periodOf]
    rw [if_neg (by omega)]
  · intro gp q h
    simp only [periodOf]
    rw [if_pos h]
  · intro gp q h
    simp only [periodOf]
    rw [if_neg (by exact not_lt.mpr h)]
  · intro gp
    simp only [periodOf]
    rw [if_neg (by omega)]
    rfl

/-- C10 witness: both sides of the threshold at concrete inputs. -/
theorem epoch_threshold_routing_witness :
    ((10000000 : Int) < 10000001 ∧
      periodOf pd_to_datetime_model (.int 10000001) = epochPeriodE (10000001 : Int).toNat) ∧
    ((10000000 : Int) ≤ 10000000 ∧
      periodOf pd_to_datetime_model (.int 10000000)
        = .ok (normalize_period pd_to_datetime_model (.int 10000000))) ∧
    ((10000000 : ℚ) < 20000000 ∧
      periodOf pd_to_datetime_model (.float 20000000) = epochPeriodE (Int.floor (20000000 : ℚ)).toNat) ∧
    ((5 : ℚ) ≤ 10000000 ∧
      periodOf pd_to_datetime_model (.float 5)
        = .ok (normalize_period pd_to_datetime_model (.float 5))) := by
  refine ⟨⟨by decide, ?_⟩, ⟨by decide, ?_⟩, ⟨by decide, ?_⟩, ⟨by decide, ?_⟩⟩
  · exact epoch_threshold_routing.1 pd_to_datetime_model 10000001 (by decide)
  · exact epoch_threshold_routing.2.1 pd_to_datetime_model 10000000 (by decide)
  · exact epoch_threshold_routing.2.2.1 pd_to_datetime_model 20000000 (by decide)
  · exact epoch_threshold_routing.2.2.2.1 pd_to_datetime_model 5 (by decide)

theorem truthy_get_hasKey (kvs : List (String × Py)) (k : String)
    (h : truthy (pyGet (.dict kvs) k) = true) : pyHasKey (.dict kvs) k = true := by
  simp only [pyGet, pyHasKey] at *
  cases hl : kvs.lookup k with
  | none => rw [hl] at h; exact absurd h (by decide)
  | some v => rfl

/-- C6: a parsed JSON value that has none of the three recognized shapes
(flat record list, object with a Data list, one-element list wrapping an
object with a Data key) makes read_json take the warning branch and
return None; no exception escapes. -/
theorem unrecognized_shape_none (gp : String → Option (Nat × Nat)) (data : Py)
    (hA : ¬shapeA data) (hB : ¬shapeB data) (hC : ¬shapeC data) :
    readJsonParsed gp data = .ok Option.none := by
  match data with
  | .none => rfl
  | .bool b => rfl
  | .int n => rfl
  | .float q => rfl
  | .nan => rfl
  | .str s => rfl
  | .list [] => rfl
  | .list (d0 :: rest) =>
    match d0 with
    | .none => rfl
    | .bool b => rfl
    | .int n => rfl
    | .float q => rfl
    | .nan => rfl
    | .str s => rfl
    | .list xs => rfl
    | .dict kvs =>
      cases ht : truthy (pyGet (.dict kvs) "Data") with
      | false => exact absurd ⟨.dict kvs, rest, rfl, ⟨kvs, rfl⟩, ht⟩ hA
      | true =>
        match rest with
        | [] => exact absurd ⟨.dict kvs, rfl, ⟨kvs, rfl⟩, truthy_get_hasKey kvs "Data" ht⟩ hC
        | r :: rs =>
          simp only [readJsonParsed]
          rw [ht]
          simp only [if_true]
  | .dict kvs =>
    simp only [readJsonParsed]
    cases hk : pyHasKey (.dict kvs) "Data" with
    | false => simp only [Bool.false_eq_true, if_false]
    | true =>
      simp only [if_true]
      match hD : pyGet (.dict kvs) "Data" with
      | .none => rfl
      | .bool b => rfl
      | .int n => rfl
      | .float q => rfl
      | .nan => rfl
      | .str s => rfl
      | .dict kvs2 => rfl
      | .list xs => exact absurd ⟨kvs, xs, rfl, hk, hD⟩ hB

/-- C6 witness: a bare number has none of the three shapes and yields
None. -/
theorem unrecognized_shape_none_witness :
    ¬shapeA (.int 5) ∧ ¬shapeB (.int 5) ∧ ¬shapeC (.int 5) ∧
    readJsonParsed pd_to_datetime_model (.int 5) = .ok Option.none := by
  have hA : ¬shapeA (.int 5) := by rintro ⟨d0, rest, heq, -, -⟩; exact Py.noConfusion heq
  have hB : ¬shapeB (.int 5) := by rintro ⟨kvs, xs, heq, -, -⟩; exact Py.noConfusion heq
  have hC : ¬shapeC (.int 5) := by rintro ⟨d0, heq, -, -⟩; exact Py.noConfusion heq
  exact ⟨hA, hB, hC, unrecognized_shape_none pd_to_datetime_model (.int 5) hA hB hC⟩

/-- C8 (corrected): the fallback of normalize_period returns the STRIPPED
input, not the original string: " abc " matches no pattern and is not
date-like, yet the function returns "abc", which differs from " abc ". -/
theorem fallback_returns_stripped_counterexample :
    matchYearM (pyStrip " abc ").toList = Option.none ∧
    matchMonthYear (pyStrip " abc ").toList = Option.none ∧
    matchYearMonth (pyStrip " abc ").toList = Option.none ∧
    matchYMD (pyStrip " abc ").toList = Option.none ∧
    pd_to_datetime_model (pyStrip " abc ") = Option.none ∧
    normalize_period pd_to_datetime_model (.str " abc ") = "abc" ∧
    "abc" ≠ " abc " := by
  refine ⟨rfl, rfl, rfl, rfl, rfl, rfl, by decide⟩

/-- C8 (amended): when no pattern matches the stripped string and the
generic parser fails, normalize_period returns the stripped input
unchanged from that point on — a silent fallback, not a hard failure. -/
theorem fallback_returns_stripped (gp : String → Option (Nat × Nat)) (s : String)
    (h1 : matchYearM (pyStrip s).toList = Option.none)
    (h2 : matchMonthYear (pyStrip s).toList = Option.none)
    (h3 : matchYearMonth (pyStrip s).toList = Option.none)
    (h4 : matchYMD (pyStrip s).toList = Option.none)
    (h5 : gp (pyStrip s) = Option.none) :
    normalize_period gp (.str s) = pyStrip s := by
  simp only [normalize_period, pyStr]
  rw [h1, h2, h3, h4, h5]

/-- C8 witness: the amended fallback at a concrete non-date string. -/
theorem fallback_returns_stripped_witness :
    normalize_period (fun _ => Option.none) (.str "hello") = pyStrip "hello" :=
  fallback_returns_stripped (fun _ => Option.none) "hello" rfl rfl rfl rfl rfl

theorem digit_toLower_fix (c : Char) (h : c.isDigit = true) : c.toLower = c := by
  simp only [Char.isDigit, Bool.and_eq_true, decide_eq_true_eq] at h
  obtain ⟨h1, h2⟩ := h
  have h1' : (48 : UInt32).toNat ≤ c.val.toNat := h1
  have h2' : c.val.toNat ≤ (57 : UInt32).toNat := h2
  have e1 : (48 : UInt32).toNat = 48 := rfl
  have e2 : (57 : UInt32).toNat = 57 := rfl
  simp only [Char.toLower]
  rw [if_neg]
  simp only [Char.toNat]
  omega

theorem special_no_digit (t : String)
    (h : t.toLower = "nan" ∨ t.toLower = "na" ∨ t.toLower = "none") :
    ∀ c ∈ t.toList, c.isDigit = false := by
  intro c hc
  by_contra hd
  rw [Bool.not_eq_false] at hd
  have hmem : c.toLower ∈ (t.toLower).toList := by
    rw [String.toLower, String.map_eq]
    exact List.mem_map_of_mem Char.toLower hc
  rw [digit_toLower_fix c hd] at hmem
  rcases h with h | h | h <;> rw [h] at hmem
  · have hx := (show ∀ x ∈ ("nan" : String).toList, x.isDigit = false by decide) c hmem
    rw [hx] at hd; exact Bool.noConfusion hd
  · have hx := (show ∀ x ∈ ("na" : String).toList, x.isDigit = false by decide) c hmem
    rw [hx] at hd; exact Bool.noConfusion hd
  · have hx := (show ∀ x ∈ ("none" : String).toList, x.isDigit = false by decide) c hmem
    rw [hx] at hd; exact Bool.noConfusion hd

theorem stripDots_no_digit (l : List Char) (h : ∀ c ∈ l, c.isDigit = false) :
    ∀ c ∈ stripDotsCommaToDot l, c.isDigit = false := by
  intro c hc
  simp only [stripDotsCommaToDot, List.mem_map, List.mem_filter] at hc
  obtain ⟨a, ⟨hal, -⟩, rfl⟩ := hc
  split
  · decide
  · exact h a hal

theorem stripChars_subset (l : List Char) : ∀ c ∈ stripChars l, c ∈ l := by
  intro c hc
  simp only [stripChars] at hc
  rw [List.mem_reverse] at hc
  have h1 := (List.dropWhile_sublist pyWs).subset hc
  rw [List.mem_reverse] at h1
  exact (List.dropWhile_sublist pyWs).subset h1

theorem takeWhile_digits_nil (l : List Char) (h : ∀ c ∈ l, c.isDigit = false) :
    l.takeWhile Char.isDigit = [] := by
  cases l with
  | nil => rfl
  | cons a t => simp [List.takeWhile_cons, h a (by simp)]

theorem dropWhile_digits_id (l : List Char) (h : ∀ c ∈ l, c.isDigit = false) :
    l.dropWhile Char.isDigit = l := by
  cases l with
  | nil => rfl
  | cons a t => simp [List.dropWhile_cons, h a (by simp)]

theorem signStrip_subset (L : List Char) (c : Char)
    (hc : c ∈ (match L with
               | '+' :: t => ((1 : Int), t)
               | '-' :: t => ((-1 : Int), t)
               | t => ((1 : Int), t)).2) : c ∈ L := by
  split at hc
  · exact List.mem_cons_of_mem _ hc
  · exact List.mem_cons_of_mem _ hc
  · exact hc

theorem fpart_len_zero (L : List Char) (h : ∀ c ∈ L, c.isDigit = false) :
    ((match L with
      | '.' :: t => (List.takeWhile Char.isDigit t, List.dropWhile Char.isDigit t)
      | t => (([] : List Char), t)).1).length = 0 := by
  split
  · rename_i t
    have ht : ∀ c ∈ t, c.isDigit = false := fun c hc => h c (by simp [hc])
    simp [takeWhile_digits_nil t ht]
  · rfl

theorem floatParts_noDigit (l : List Char) (h : ∀ c ∈ stripChars l, c.isDigit = false) :
    floatParts l = Option.none := by
  simp only [floatParts]
  have hM2 : ∀ c ∈ (match stripChars l with
                    | '+' :: t => ((1 : Int), t)
                    | '-' :: t => ((-1 : Int), t)
                    | t => ((1 : Int), t)).2, c.isDigit = false :=
    fun c hc => h c (signStrip_subset (stripChars l) c hc)
  rw [if_pos]
  constructor
  · simp [takeWhile_digits_nil _ hM2]
  · rw [dropWhile_digits_id _ hM2]
    exact fpart_len_zero _ hM2

theorem pyFloat_noDigit (L : List Char) (h : ∀ c ∈ L, c.isDigit = false) :
    pyFloat (String.mk L) = Option.none := by
  have hs : ∀ c ∈ stripChars L, c.isDigit = false := fun c hc => h c (stripChars_subset _ c hc)
  show (floatParts (String.toList (String.mk L))).map _ = Option.none
  rw [show String.toList (String.mk L) = L from rfl, floatParts_noDigit L hs]
  rfl

theorem toLower_eval (s : String) : s.toLower = String.mk (s.data.map Char.toLower) := by
  rw [String.toLower, String.map_eq]

/-- C4: to_float is total over every input kind -- the exception-aware
variant always returns ok of the plain result -- and on strings it agrees
with the spec's conversion rule (strip dots, comma to decimal point, parse,
absent on failure); "1.234,56" parses to 1234.56, "" and "NaN" give the
absent marker, and the number 42 maps to 42.0. -/
theorem to_float_total_spec :
    (∀ x, to_float_exc x = .ok (to_float x)) ∧
    (∀ s, to_float (.str s) = spec_value_rule s) ∧
    to_float (.str "1.234,56") = some (123456 / 100 : ℚ) ∧
    to_float (.str "") = Option.none ∧
    to_float (.str "NaN") = Option.none ∧
    to_float (.int 42) = some 42 := by
  have hstr : ∀ s : String, to_float (.str s) = spec_value_rule s := by
    intro s
    simp only [to_float, spec_value_rule, pyStr]
    by_cases hsp : pyStrip s = "" ∨ (pyStrip s).toLower = "nan" ∨
        (pyStrip s).toLower = "na" ∨ (pyStrip s).toLower = "none"
    · rw [if_pos hsp]
      rcases hsp with h0 | hsp'
      · rw [h0]; rfl
      · have hnd := special_no_digit (pyStrip s) hsp'
        have hnd2 := stripDots_no_digit _ hnd
        rw [pyFloat_noDigit _ hnd2]
    · rw [if_neg hsp]
  refine ⟨?_, hstr, ?_, rfl, ?_, ?_⟩
  · intro x
    match x with
    | .none => rfl
    | .nan => rfl
    | .bool b => rfl
    | .int n => rfl
    | .float q => rfl
    | .str s =>
      simp only [to_float, to_float_exc]
      by_cases hsp : pyStrip (pyStr (.str s)) = "" ∨ (pyStrip (pyStr (.str s))).toLower = "nan" ∨
          (pyStrip (pyStr (.str s))).toLower = "na" ∨ (pyStrip (pyStr (.str s))).toLower = "none"
      · rw [if_pos hsp, if_pos hsp]
      · rw [if_neg hsp, if_neg hsp]
        cases hf : pyFloat (String.mk (stripDotsCommaToDot (pyStrip (pyStr (.str s))).toList)) with
        | none => rfl
        | some v => rfl
    | .list xs =>
      simp only [to_float, to_float_exc]
      by_cases hsp : pyStrip (pyStr (.list xs)) = "" ∨ (pyStrip (pyStr (.list xs))).toLower = "nan" ∨
          (pyStrip (pyStr (.list xs))).toLower = "na" ∨ (pyStrip (pyStr (.list xs))).toLower = "none"
      · rw [if_pos hsp, if_pos hsp]
      · rw [if_neg hsp, if_neg hsp]
        cases hf : pyFloat (String.mk (stripDotsCommaToDot (pyStrip (pyStr (.list xs))).toList)) with
        | none => rfl
        | some v => rfl
    | .dict kvs =>
      simp only [to_float, to_float_exc]
      by_cases hsp : pyStrip (pyStr (.dict kvs)) = "" ∨ (pyStrip (pyStr (.dict kvs))).toLower = "nan" ∨
          (pyStrip (pyStr (.dict kvs))).toLower = "na" ∨ (pyStrip (pyStr (.dict kvs))).toLower = "none"
      · rw [if_pos hsp, if_pos hsp]
      · rw [if_neg hsp, if_neg hsp]
        cases hf : pyFloat (String.mk (stripDotsCommaToDot (pyStrip (pyStr (.dict kvs))).toList)) with
        | none => rfl
        | some v => rfl
  · have h1 : to_float (.str "1.234,56") = some (((123456 : Int) : ℚ) / ((100 : Nat) : ℚ)) := by
      simp only [to_float, pyStr]
      rw [if_neg (by rw [toLower_eval]; decide)]
      rfl
    rw [h1]
    norm_num
  · simp only [to_float, pyStr]
    rw [if_pos (by rw [toLower_eval]; decide)]
  · have h1 : to_float (.int 42) = some (((42 : Int) : ℚ)) := rfl
    rw [h1]
    norm_num

theorem insertObs_mem (a x : Obs) (l : List Obs) :
    x ∈ insertObs a l → x = a ∨ x ∈ l := by
  induction l with
  | nil => intro h; simp [insertObs] at h; exact Or.inl h
  | cons b t ih =>
    intro h
    simp only [insertObs] at h
    by_cases hlt : b.period < a.period
    · rw [if_pos hlt] at h
      rcases List.mem_cons.mp h with rfl | h2
      · exact Or.inr (List.mem_cons_self _ _)
      · rcases ih h2 with h3 | h3
        · exact Or.inl h3
        · exact Or.inr (List.mem_cons_of_mem _ h3)
    · rw [if_neg hlt] at h
      rcases List.mem_cons.mp h with rfl | h2
      · exact Or.inl rfl
      · exact Or.inr h2

theorem insertObs_sorted (a : Obs) (l : List Obs)
    (h : List.Pairwise (fun x y : Obs => x.period ≤ y.period) l) :
    List.Pairwise (fun x y : Obs => x.period ≤ y.period) (insertObs a l) := by
  induction l with
  | nil => simp [insertObs]
  | cons b t ih =>
    rw [List.pairwise_cons] at h
    obtain ⟨hb, ht⟩ := h
    simp only [insertObs]
    split
    · rename_i hlt
      rw [List.pairwise_cons]
      constructor
      · intro x hx
        rcases insertObs_mem a x t hx with rfl | hx2
        · exact le_of_lt hlt
        · exact hb x hx2
      · exact ih ht
    · rename_i hnlt
      rw [List.pairwise_cons]
      constructor
      · intro x hx
        rcases List.mem_cons.mp hx with rfl | hx2
        · exact le_of_not_lt hnlt
        · exact le_trans (le_of_not_lt hnlt) (hb x hx2)
      · rw [List.pairwise_cons]
        exact ⟨hb, ht⟩

theorem pySortObs_sorted (l : List Obs) :
    List.Pairwise (fun x y : Obs => x.period ≤ y.period) (pySortObs l) := by
  induction l with
  | nil => simp [pySortObs]
  | cons a t ih => exact insertObs_sorted a (pySortObs t) ih

theorem pySortObs_mem (x : Obs) (l : List Obs) (h : x ∈ pySortObs l) : x ∈ l := by
  induction l with
  | nil => simp [pySortObs] at h
  | cons a t ih =>
    simp only [pySortObs] at h
    rcases insertObs_mem a x (pySortObs t) h with rfl | h2
    · simp
    · simp [ih h2]

theorem normRecA_period_ne (gp : String → Option (Nat × Nat)) (d : Py) (ob : Obs)
    (h : normRecA gp d = .ok (some ob)) : ob.period ≠ "" := by
  match d with
  | .none | .bool _ | .int _ | .float _ | .nan | .str _ | .list _ => exact Except.noConfusion h
  | .dict kvs =>
    simp only [normRecA] at h
    rcases hp : periodOf gp (pyOr (pyOr (pyGet (.dict kvs) "period") (pyGet (.dict kvs) "Periodo"))
        (pyGet (.dict kvs) "Fecha")) with e | per
    · rw [hp] at h; exact Except.noConfusion h
    · rw [hp] at h
      rcases hv : to_float (pyOr (pyGet (.dict kvs) "value") (pyGet (.dict kvs) "Valor")) with - | v
      · rw [hv] at h
        have h2 : (Option.none : Option Obs) = some ob := Except.ok.inj h
        exact Option.noConfusion h2
      · rw [hv] at h
        dsimp only at h
        by_cases hper : per ≠ ""
        · rw [if_pos hper] at h
          have h2 : some (⟨per, v⟩ : Obs) = some ob := Except.ok.inj h
          rw [← Option.some.inj h2]
          exact hper
        · rw [if_neg hper] at h
          have h2 : (Option.none : Option Obs) = some ob := Except.ok.inj h
          exact Option.noConfusion h2

theorem normRecBC_period_ne (gp : String → Option (Nat × Nat)) (d : Py) (ob : Obs)
    (h : normRecBC gp d = .ok (some ob)) : ob.period ≠ "" := by
  match d with
  | .none | .bool _ | .int _ | .float _ | .nan | .str _ | .list _ => exact Except.noConfusion h
  | .dict kvs =>
    simp only [normRecBC] at h
    rcases hp : periodOf gp (pyOr (pyOr (pyGet (.dict kvs) "Fecha") (pyGet (.dict kvs) "Periodo"))
        (pyGet (.dict kvs) "period")) with e | per
    · rw [hp] at h; exact Except.noConfusion h
    · rw [hp] at h
      rcases hv : to_float (pyOr (pyGet (.dict kvs) "Valor") (pyGet (.dict kvs) "value")) with - | v
      · rw [hv] at h
        have h2 : (Option.none : Option Obs) = some ob := Except.ok.inj h
        exact Option.noConfusion h2
      · rw [hv] at h
        dsimp only at h
        by_cases hper : per ≠ ""
        · rw [if_pos hper] at h
          have h2 : some (⟨per, v⟩ : Obs) = some ob := Except.ok.inj h
          rw [← Option.some.inj h2]
          exact hper
        · rw [if_neg hper] at h
          have h2 : (Option.none : Option Obs) = some ob := Except.ok.inj h
          exact Option.noConfusion h2

theorem processRecs_period_ne (f : Py → Except PyErr (Option Obs))
    (hf : ∀ r ob, f r = .ok (some ob) → ob.period ≠ "") :
    ∀ xs out, processRecs f xs = .ok out → ∀ o ∈ out, o.period ≠ "" := by
  intro xs
  induction xs with
  | nil =>
    intro out h o ho
    have h2 : ([] : List Obs) = out := Except.ok.inj h
    rw [← h2] at ho
    simp at ho
  | cons r rs ih =>
    intro out h o ho
    simp only [processRecs] at h
    rcases hr : f r with e | ob
    · rw [hr] at h; exact Except.noConfusion h
    · rw [hr] at h
      rcases hrest : processRecs f rs with e | rest
      · rw [hrest] at h; exact Except.noConfusion h
      · rw [hrest] at h
        rcases ob with - | ob1
        · have h2 : rest = out := Except.ok.inj h
          exact ih rest hrest o (h2 ▸ ho)
        · have h2 : ob1 :: rest = out := Except.ok.inj h
          rw [← h2] at ho
          rcases List.mem_cons.mp ho with rfl | ho2
          · exact hf r o hr
          · exact ih rest hrest o ho2

theorem sortedOut (f : Py → Except PyErr (Option Obs))
    (hf : ∀ r ob, f r = .ok (some ob) → ob.period ≠ "") (xs : List Py) (out0 : List Obs)
    (h : processRecs f xs = .ok out0) :
    List.Pairwise (fun a b : Obs => a.period ≤ b.period) (pySortObs out0) ∧
    ∀ o ∈ pySortObs out0, o.period ≠ "" :=
  ⟨pySortObs_sorted out0, fun o ho => processRecs_period_ne f hf xs out0 h o (pySortObs_mem o out0 ho)⟩

theorem readJsonParsed_sorted_filtered (gp : String → Option (Nat × Nat)) (data : Py)
    (out : List Obs) (h : readJsonParsed gp data = .ok (some out)) :
    List.Pairwise (fun a b : Obs => a.period ≤ b.period) out ∧ ∀ o ∈ out, o.period ≠ "" := by
  match data with
  | .none => exact Option.noConfusion (Except.ok.inj h)
  | .bool _ => exact Option.noConfusion (Except.ok.inj h)
  | .int _ => exact Option.noConfusion (Except.ok.inj h)
  | .float _ => exact Option.noConfusion (Except.ok.inj h)
  | .nan => exact Option.noConfusion (Except.ok.inj h)
  | .str _ => exact Option.noConfusion (Except.ok.inj h)
  | .list [] => exact Option.noConfusion (Except.ok.inj h)
  | .list (d0 :: rest) =>
    match d0 with
    | .none => exact Option.noConfusion (Except.ok.inj h)
    | .bool _ => exact Option.noConfusion (Except.ok.inj h)
    | .int _ => exact Option.noConfusion (Except.ok.inj h)
    | .float _ => exact Option.noConfusion (Except.ok.inj h)
    | .nan => exact Option.noConfusion (Except.ok.inj h)
    | .str _ => exact Option.noConfusion (Except.ok.inj h)
    | .list _ => exact Option.noConfusion (Except.ok.inj h)
    | .dict kvs =>
      simp only [readJsonParsed] at h
      cases ht : truthy (pyGet (.dict kvs) "Data") with
      | false =>
        rw [ht] at h
        simp only [Bool.false_eq_true, if_false] at h
        rcases hpr : processRecs (normRecA gp) (Py.dict kvs :: rest) with e | out0
        · rw [hpr] at h; exact Except.noConfusion h
        · rw [hpr] at h
          dsimp only at h
          have h3 : pySortObs out0 = out := Option.some.inj (Except.ok.inj h)
          rw [← h3]
          exact sortedOut (normRecA gp) (normRecA_period_ne gp) _ out0 hpr
      | true =>
        rw [ht] at h
        simp only [if_true] at h
        match rest with
        | _ :: _ => exact Option.noConfusion (Except.ok.inj h)
        | [] =>
          rcases hD : pyGet (.dict kvs) "Data" with - | b | n | q | - | s | xs | kvs2
          · rw [hD] at h; exact Except.noConfusion h
          · rw [hD] at h; exact Except.noConfusion h
          · rw [hD] at h; exact Except.noConfusion h
          · rw [hD] at h; exact Except.noConfusion h
          · rw [hD] at h; exact Except.noConfusion h
          · rw [hD] at h
            dsimp only at h
            by_cases hs : s = ""
            · rw [if_pos hs] at h
              have h3 : ([] : List Obs) = out := Option.some.inj (Except.ok.inj h)
              rw [← h3]
              exact ⟨List.Pairwise.nil, by simp⟩
            · rw [if_neg hs] at h; exact Except.noConfusion h
          · rw [hD] at h
            dsimp only at h
            rcases hpr : processRecs (normRecBC gp) xs with e | out0
            · rw [hpr] at h; exact Except.noConfusion h
            · rw [hpr] at h
              dsimp only at h
              have h3 : pySortObs out0 = out := Option.some.inj (Except.ok.inj h)
              rw [← h3]
              exact sortedOut (normRecBC gp) (normRecBC_period_ne gp) _ out0 hpr
          · rw [hD] at h
            dsimp only at h
            by_cases hk : kvs2.isEmpty
            · rw [if_pos hk] at h
              have h3 : ([] : List Obs) = out := Option.some.inj (Except.ok.inj h)
              rw [← h3]
              exact ⟨List.Pairwise.nil, by simp⟩
            · rw [if_neg hk] at h; exact Except.noConfusion h
  | .dict kvs =>
    simp only [readJsonParsed] at h
    cases hk : pyHasKey (.dict kvs) "Data" with
    | false =>
      rw [hk] at h
      simp only [Bool.false_eq_true, if_false] at h
      exact Option.noConfusion (Except.ok.inj h)
    | true =>
      rw [hk] at h
      simp only [if_true] at h
      rcases hD : pyGet (.dict kvs) "Data" with - | b | n | q | - | s | xs | kvs2
      · rw [hD] at h; exact Option.noConfusion (Except.ok.inj h)
      · rw [hD] at h; exact Option.noConfusion (Except.ok.inj h)
      · rw [hD] at h; exact Option.noConfusion (Except.ok.inj h)
      · rw [hD] at h; exact Option.noConfusion (Except.ok.inj h)
      · rw [hD] at h; exact Option.noConfusion (Except.ok.inj h)
      · rw [hD] at h; exact Option.noConfusion (Except.ok.inj h)
      · rw [hD] at h
        dsimp only at h
        rcases hpr : processRecs (normRecBC gp) xs with e | out0
        · rw [hpr] at h; exact Except.noConfusion h
        · rw [hpr] at h
          dsimp only at h
          have h3 : pySortObs out0 = out := Option.some.inj (Except.ok.inj h)
          rw [← h3]
          exact sortedOut (normRecBC gp) (normRecBC_period_ne gp) _ out0 hpr
      · rw [hD] at h; exact Option.noConfusion (Except.ok.inj h)

/-- C7: whenever read_json returns a dataset, the observation sequence is
sorted ascending by period, and every observation kept passed the keep
test: its normalized period is non-empty (and its value parsed, since a
kept observation stores a number by construction); records failing either
were dropped. -/
theorem read_json_sorted_filtered (gp : String → Option (Nat × Nat)) (fs : FileSys)
    (tid : String) (out : List Obs) (h : read_json gp fs tid = .ok (some out)) :
    List.Pairwise (fun a b : Obs => a.period ≤ b.period) out ∧ ∀ o ∈ out, o.period ≠ "" := by
  simp only [read_json] at h
  rcases hf : fs tid with - | e
  · rw [hf] at h; exact Option.noConfusion (Except.ok.inj h)
  · rcases e with e | data
    · rw [hf] at h; exact Option.noConfusion (Except.ok.inj h)
    · rw [hf] at h
      exact readJsonParsed_sorted_filtered gp data out h

/-- C7 witness: a concrete one-record file. -/
theorem read_json_sorted_filtered_witness :
    read_json pd_to_datetime_model
      (fun _ => some (.ok (.list [.dict [("period", .str "2024M01"), ("value", .int 3)]])))
      "1001" = .ok (some [⟨"2024-01", ((3 : Int) : ℚ)⟩]) ∧
    (List.Pairwise (fun a b : Obs => a.period ≤ b.period) [(⟨"2024-01", ((3 : Int) : ℚ)⟩ : Obs)] ∧
     ∀ o ∈ [(⟨"2024-01", ((3 : Int) : ℚ)⟩ : Obs)], o.period ≠ "") := by
  refine ⟨rfl, ?_⟩
  exact read_json_sorted_filtered pd_to_datetime_model
    (fun _ => some (.ok (.list [.dict [("period", .str "2024M01"), ("value", .int 3)]])))
    "1001" [⟨"2024-01", ((3 : Int) : ℚ)⟩] rfl

theorem pyOr_chain_unique (a b c : Py)
    (h : (truthy a = true ∧ truthy b = false ∧ truthy c = false) ∨
         (truthy a = false ∧ truthy b = true ∧ truthy c = false) ∨
         (truthy a = false ∧ truthy b = false ∧ truthy c = true)) :
    pyOr (pyOr a b) c = pyOr (pyOr c b) a := by
  rcases h with ⟨h1, h2, h3⟩ | ⟨h1, h2, h3⟩ | ⟨h1, h2, h3⟩ <;>
    simp [pyOr, h1, h2, h3]

theorem pyOr_pair_unique (a b : Py)
    (h : (truthy a = true ∧ truthy b = false) ∨ (truthy a = false ∧ truthy b = true)) :
    pyOr a b = pyOr b a := by
  rcases h with ⟨h1, h2⟩ | ⟨h1, h2⟩ <;> simp [pyOr, h1, h2]

theorem normRec_agree (gp : String → Option (Nat × Nat)) (d : Py)
    (hper : (truthy (pyGet d "period") = true ∧ truthy (pyGet d "Periodo") = false ∧
              truthy (pyGet d "Fecha") = false) ∨
            (truthy (pyGet d "period") = false ∧ truthy (pyGet d "Periodo") = true ∧
              truthy (pyGet d "Fecha") = false) ∨
            (truthy (pyGet d "period") = false ∧ truthy (pyGet d "Periodo") = false ∧
              truthy (pyGet d "Fecha") = true))
    (hval : (truthy (pyGet d "value") = true ∧ truthy (pyGet d "Valor") = false) ∨
            (truthy (pyGet d "value") = false ∧ truthy (pyGet d "Valor") = true)) :
    normRecA gp d = normRecBC gp d := by
  match d with
  | .none => rfl
  | .bool _ => rfl
  | .int _ => rfl
  | .float _ => rfl
  | .nan => rfl
  | .str _ => rfl
  | .list _ => rfl
  | .dict kvs =>
    simp only [normRecA, normRecBC]
    rw [pyOr_chain_unique _ _ _ hper, pyOr_pair_unique _ _ hval]

theorem processRecs_congr (f g : Py → Except PyErr (Option Obs)) (xs : List Py)
    (h : ∀ x ∈ xs, f x = g x) : processRecs f xs = processRecs g xs := by
  induction xs with
  | nil => rfl
  | cons r rs ih =>
    simp only [processRecs]
    rw [h r (List.mem_cons_self r rs), ih (fun x hx => h x (List.mem_cons_of_mem r hx))]

/-- C5 (amended): the three recognized shapes yield identical observation
sequences provided the underlying records are truly equivalent for both
record loops: the first record carries no truthy "Data" entry (else the
flat list is routed to the Data branch), and each record has exactly one
truthy key among period/Periodo/Fecha and exactly one truthy key among
value/Valor, so that the two opposite-priority or-chains pick the same
field.  Without these provisos the shapes can disagree (see the
counterexample). -/
theorem shapes_agree (gp : String → Option (Nat × Nat)) (kvs : List (String × Py)) (rest : List Py)
    (hnoData : truthy (pyGet (.dict kvs) "Data") = false)
    (hper : ∀ d ∈ (Py.dict kvs) :: rest,
      (truthy (pyGet d "period") = true ∧ truthy (pyGet d "Periodo") = false ∧
        truthy (pyGet d "Fecha") = false) ∨
      (truthy (pyGet d "period") = false ∧ truthy (pyGet d "Periodo") = true ∧
        truthy (pyGet d "Fecha") = false) ∨
      (truthy (pyGet d "period") = false ∧ truthy (pyGet d "Periodo") = false ∧
        truthy (pyGet d "Fecha") = true))
    (hval : ∀ d ∈ (Py.dict kvs) :: rest,
      (truthy (pyGet d "value") = true ∧ truthy (pyGet d "Valor") = false) ∨
      (truthy (pyGet d "value") = false ∧ truthy (pyGet d "Valor") = true)) :
    readJsonParsed gp (.dict [("Data", .list ((Py.dict kvs) :: rest))]) =
      readJsonParsed gp (.list ((Py.dict kvs) :: rest)) ∧
    readJsonParsed gp (.list [.dict [("Data", .list ((Py.dict kvs) :: rest))]]) =
      readJsonParsed gp (.list ((Py.dict kvs) :: rest)) := by
  have hcongr : processRecs (normRecBC gp) ((Py.dict kvs) :: rest) =
      processRecs (normRecA gp) ((Py.dict kvs) :: rest) :=
    processRecs_congr _ _ _ (fun x hx => (normRec_agree gp x (hper x hx) (hval x hx)).symm)
  constructor
  · simp only [readJsonParsed]
    rw [if_pos (by rfl)]
    rw [show pyGet (.dict [("Data", .list ((Py.dict kvs) :: rest))]) "Data"
          = .list ((Py.dict kvs) :: rest) from rfl]
    dsimp only
    rw [hcongr, hnoData]
    simp only [Bool.false_eq_true, if_false]
  · simp only [readJsonParsed]
    rw [if_pos (by rfl)]
    rw [show pyGet (.dict [("Data", .list ((Py.dict kvs) :: rest))]) "Data"
          = .list ((Py.dict kvs) :: rest) from rfl]
    dsimp only
    rw [hcongr, hnoData]
    simp only [Bool.false_eq_true, if_false]

/-- C5 counterexample: an empty flat list yields no dataset while an
empty Data list yields an empty dataset, and a record carrying both
"period" and "Fecha" normalizes to different periods in the flat branch
(period first) and the Data branch (Fecha first). -/
theorem shapes_disagree_counterexample :
    readJsonParsed pd_to_datetime_model (.list []) = .ok Option.none ∧
    readJsonParsed pd_to_datetime_model (.dict [("Data", .list [])]) = .ok (some []) ∧
    readJsonParsed pd_to_datetime_model
      (.list [.dict [("period", .str "2024M01"), ("Fecha", .str "2023M05"), ("value", .int 1)]])
      = .ok (some [⟨"2024-01", ((1 : Int) : ℚ)⟩]) ∧
    readJsonParsed pd_to_datetime_model
      (.dict [("Data", .list [.dict [("period", .str "2024M01"), ("Fecha", .str "2023M05"),
        ("value", .int 1)]])])
      = .ok (some [⟨"2023-05", ((1 : Int) : ℚ)⟩]) ∧
    ("2024-01" : String) ≠ "2023-05" :=
  ⟨rfl, rfl, rfl, rfl, by decide⟩

/-- C5 witness: the amended agreement at a concrete one-record input. -/
theorem shapes_agree_witness :
    truthy (pyGet (Py.dict [("period", .str "2024M01"), ("value", .int 3)]) "Data") = false ∧
    (readJsonParsed pd_to_datetime_model
        (.dict [("Data", .list [.dict [("period", .str "2024M01"), ("value", .int 3)]])]) =
      readJsonParsed pd_to_datetime_model
        (.list [.dict [("period", .str "2024M01"), ("value", .int 3)]]) ∧
     readJsonParsed pd_to_datetime_model
        (.list [.dict [("Data", .list [.dict [("period", .str "2024M01"), ("value", .int 3)]])]]) =
      readJsonParsed pd_to_datetime_model
        (.list [.dict [("period", .str "2024M01"), ("value", .int 3)]])) := by
  refine ⟨rfl, ?_⟩
  exact shapes_agree pd_to_datetime_model [("period", .str "2024M01"), ("value", .int 3)] [] rfl
    (fun d hd => by
      rw [List.mem_singleton] at hd
      subst hd
      exact Or.inl ⟨rfl, rfl, rfl⟩)
    (fun d hd => by
      rw [List.mem_singleton] at hd
      subst hd
      exact Or.inl ⟨rfl, rfl⟩)
